import Mathlib

/-!
# QSLCard-Manager: QSL Card Lifecycle & Log Reconciliation Engine

Shallow embedding of the engine code in `src/main.py` (classes
`DatabaseManager`, `QSL_ID_Generator`, and the merge loop of
`LogManagementWidget.check_for_duplicates` / `run_print_job`), together with
proofs settling the specification claims about it.

Modelling conventions:
* SQLite TEXT values are Lean `String`s; SQL `NULL` and Python `None` are
  modelled as the empty string `""` (for every operation used here Python
  treats `None` and `""` identically as falsy, and the code never stores
  `NULL` in a field it later distinguishes from `""`).  REAL columns
  (`freq`, `freq_rx`) are modelled by their textual rendering; the only use
  the engine makes of them is the Python truthiness test, modelled as
  non-emptiness.
* Machine integers are `Nat` (SQLite rowids and serials are non-negative and
  unbounded in the ranges the code touches; no wrap-around arithmetic occurs).
* Each `cursor.execute`+`commit` (`DatabaseManager.execute_query`) commits
  independently; statements that can fail take an explicit failure flag, and a
  failed statement leaves the committed state unchanged (sqlite rollback of
  the single-statement transaction) and returns `false`, exactly as
  `execute_query` does.
* `secrets.token_hex(8)` is modelled by an arbitrary `Nat` entropy argument
  rendered as 16 hex digits; `datetime.now()` is an explicit year / timestamp
  argument.
-/

namespace QSL

/-! ## Decimal and hex rendering (Python `%d`, `%06d`, `token_hex(8).upper()`) -/

/-- The decimal digit character for `d % 10`-style arguments (`d ≤ 9` in every
use; the catch-all returns `'9'` to keep the function total). -/
def digitChar : Nat → Char
  | 0 => '0' | 1 => '1' | 2 => '2' | 3 => '3' | 4 => '4'
  | 5 => '5' | 6 => '6' | 7 => '7' | 8 => '8' | _ => '9'

/-- The uppercase hex digit character for `d % 16`-style arguments. -/
def hexDigit : Nat → Char
  | 0 => '0' | 1 => '1' | 2 => '2' | 3 => '3' | 4 => '4'
  | 5 => '5' | 6 => '6' | 7 => '7' | 8 => '8' | 9 => '9'
  | 10 => 'A' | 11 => 'B' | 12 => 'C' | 13 => 'D' | 14 => 'E' | _ => 'F'

/-- Digits of `n` in order, fuel-bounded so the definition is structural and
kernel-reducible.  `natDec` passes fuel 24, enough for every `Nat` below
`10^24`; no quantity in this development approaches that. -/
def natDecAux : Nat → Nat → List Char
  | 0, _ => []
  | fuel + 1, n => if n = 0 then [] else natDecAux fuel (n / 10) ++ [digitChar (n % 10)]

/-- Decimal rendering of a natural number (Python `str`/`%d`). -/
def natDec (n : Nat) : String :=
  if n = 0 then "0" else ⟨natDecAux 24 n⟩

/-- Python `f"{n:06d}"`: decimal, left-padded with zeros to a *minimum* width
of 6 — wider numbers are rendered in full. -/
def pad6 (n : Nat) : String :=
  let d := natDec n
  if d.length < 6 then ⟨List.replicate (6 - d.length) '0' ++ d.data⟩ else d

/-- Python `f"{n:02d}"`-style two-digit rendering, for year values `< 100`. -/
def pad2 (n : Nat) : String :=
  if n < 10 then ⟨'0' :: (natDec n).data⟩ else natDec n

/-- `datetime.now().strftime('%y')`: the two-digit year string. -/
def yearStr (y : Nat) : String := pad2 (y % 100)

/-- `secrets.token_hex(8).upper()`: 16 uppercase hex characters, big-endian
rendering of the 8 entropy bytes. -/
def hex16 (e : Nat) : String :=
  ⟨((List.range 16).reverse).map fun i => hexDigit (e / 16 ^ i % 16)⟩

/-! ## Small string utilities -/

/-- ASCII uppercase of one character. -/
def upperChar (c : Char) : Char :=
  if 'a' ≤ c ∧ c ≤ 'z' then Char.ofNat (c.toNat - 32) else c

/-- ASCII uppercase of a string: both Python `str.upper()` and SQLite
`UPPER()` on the ASCII callsign/band/mode data the engine stores. -/
def upperStr (s : String) : String := ⟨s.data.map upperChar⟩

/-- Python `int(s)` on an all-digit string (a decimal-digit fold; every call
site in the code applies it to digit slices of generated identifiers). -/
def parseDec (l : List Char) : Nat :=
  l.foldl (fun a c => a * 10 + (c.toNat - 48)) 0

/-- Python slice `s[a:b]` (on the strings used here, `a ≤ b`). -/
def strSlice (s : String) (a b : Nat) : String :=
  ⟨(s.data.drop a).take (b - a)⟩

/-- `l1` occurs at the head of `l2`. -/
def startsWith : List Char → List Char → Bool
  | [], _ => true
  | _ :: _, [] => false
  | a :: as, b :: bs => a == b && startsWith as bs

/-- Python `sub in s` for strings: substring occurrence. -/
def containsSub : List Char → List Char → Bool
  | n, [] => n.isEmpty
  | n, c :: rest => startsWith n (c :: rest) || containsSub n rest

/-- Membership in Python's strip set `" | "`, i.e. `{' ', '|'}`. -/
def isStripChar (c : Char) : Bool := c == ' ' || c == '|'

/-- Python `s.strip(" | ")`: remove leading *and* trailing characters drawn
from `{' ', '|'}`. -/
def pyStrip (s : String) : String :=
  ⟨(((s.data.dropWhile isStripChar).reverse).dropWhile isStripChar).reverse⟩

/-- The comment-concatenation formula exactly as the specification words it:
the template trimmed of *leading* separators only.  (Claim-side definition,
compared against the code's `pyStrip`-based behaviour.) -/
def specCommentFormula (old new : String) : String :=
  ⟨(old ++ " | MERGED: " ++ new).data.dropWhile isStripChar⟩

/-! ## Time parsing (`datetime.strptime(t.zfill(6), '%H%M%S')`) -/

/-- Python `s.zfill(6)`: left-pad with `'0'` to length 6 (the sign-moving
behaviour of `zfill` is irrelevant here: a sign character makes the string
unparsable as `%H%M%S` either way). -/
def zfill6 (s : String) : String :=
  if s.length < 6 then ⟨List.replicate (6 - s.length) '0' ++ s.data⟩ else s

/-- `datetime.strptime(t.zfill(6), '%H%M%S')`, as seconds since midnight.
Succeeds exactly when the padded string is 6 decimal digits forming a valid
`HHMMSS` time (hours ≤ 23, minutes ≤ 59, seconds ≤ 59 — `datetime` rejects
leap seconds); any other shape raises `ValueError`, modelled as `none`. -/
def parseHHMMSS (s : String) : Option Nat :=
  let t := zfill6 s
  let l := t.data
  if l.length == 6 && l.all Char.isDigit then
    let d := fun i => ((l.get? i).getD '0').toNat - 48
    let h := d 0 * 10 + d 1
    let m := d 2 * 10 + d 3
    let sec := d 4 * 10 + d 5
    if h ≤ 23 && m ≤ 59 && sec ≤ 59 then some (h * 3600 + m * 60 + sec) else none
  else none

/-- `abs(t1 - t2)` on two same-day times, in seconds. -/
def tdist (a b : Nat) : Nat := if a ≤ b then b - a else a - b

/-- The dedup window `datetime.timedelta(minutes=5)`, in seconds. -/
def timeWindow : Nat := 300

/-! ## Sorting (Python `sorted`, SQL `ORDER BY`) -/

/-- Insert into a sorted list by a boolean comparison (stable). -/
def insertBy (le : α → α → Bool) (x : α) : List α → List α
  | [] => [x]
  | y :: ys => if le x y then x :: y :: ys else y :: insertBy le x ys

/-- Insertion sort by a boolean comparison (stable; models Python `sorted`
and the SQL `ORDER BY`s used by the engine, whose tie order is immaterial to
every claim). -/
def sortBy (le : α → α → Bool) : List α → List α
  | [] => []
  | x :: xs => insertBy le x (sortBy le xs)

/-- Byte-wise lexicographic `≤` on strings (SQLite's default TEXT collation
on the ASCII data stored here). -/
def strLe : List Char → List Char → Bool
  | [], _ => true
  | _ :: _, [] => false
  | c :: cs, d :: ds =>
    if c.toNat < d.toNat then true
    else if d.toNat < c.toNat then false
    else strLe cs ds

/-- `sorted(list(cluster))` on contact ids. -/
def sortNat (l : List Nat) : List Nat := sortBy (fun a b => a ≤ b) l

end QSL

namespace QSL

/-! ## Data model (`initialize_database` schema) -/

/-- Card direction (`'RC'` received / `'TC'` sent).  `QSL_ID_Generator.generate`
raises `ValueError` on any other string; the two-valued type makes that branch
unrepresentable. -/
inductive Dir | RC | TC
deriving DecidableEq

/-- One `logs` row.  `id` is the rowid primary key; the fourteen TEXT/REAL
data columns are strings (see the modelling conventions above); `qsl_sent` /
`qsl_rcvd` hold `"Y"` / `"N"`; `sort_id` is the display-order integer.  The
derived `adif_blob` audit column is not modelled — every claim excludes it. -/
structure LogRecord where
  id : Nat
  station_callsign : String
  qso_date : String
  time_on : String
  band : String
  band_rx : String
  freq : String
  freq_rx : String
  mode : String
  submode : String
  rst_sent : String
  rst_rcvd : String
  comment : String
  sat_name : String
  prop_mode : String
  qsl_sent : String
  qsl_rcvd : String
  sort_id : Nat
deriving DecidableEq

/-- One `qsl_cards` row. -/
structure Card where
  qsl_id : String
  direction : Dir
  status : String
  created_at : Nat
deriving DecidableEq

/-- The database: `logs`, `qsl_cards` and the `qsl_log_link` table (pairs
`(qsl_id, log_id)`).  Lists are in rowid / insertion order, the order in which
unordered SQLite scans return rows. -/
structure DB where
  logs : List LogRecord
  cards : List Card
  links : List (String × Nat)
deriving DecidableEq

/-- The merge loop of `check_for_duplicates` iterates over every row key
except `id` and `adif_blob`.  This enumerates the string-valued ones
(`sort_id`, the remaining integer key, is treated separately). -/
inductive Field
  | station_callsign | qso_date | time_on | band | band_rx | freq | freq_rx
  | mode | submode | rst_sent | rst_rcvd | comment | sat_name | prop_mode
  | qsl_sent | qsl_rcvd
deriving DecidableEq

/-- Projection of a string field. -/
def getF : Field → LogRecord → String
  | .station_callsign, r => r.station_callsign
  | .qso_date, r => r.qso_date
  | .time_on, r => r.time_on
  | .band, r => r.band
  | .band_rx, r => r.band_rx
  | .freq, r => r.freq
  | .freq_rx, r => r.freq_rx
  | .mode, r => r.mode
  | .submode, r => r.submode
  | .rst_sent, r => r.rst_sent
  | .rst_rcvd, r => r.rst_rcvd
  | .comment, r => r.comment
  | .sat_name, r => r.sat_name
  | .prop_mode, r => r.prop_mode
  | .qsl_sent, r => r.qsl_sent
  | .qsl_rcvd, r => r.qsl_rcvd

/-! ## Contact store operations (`DatabaseManager`) -/

/-- `get_log_details`: `SELECT * FROM logs WHERE id = ?` (first match). -/
def getLogDetails (db : DB) (i : Nat) : Option LogRecord :=
  db.logs.find? (fun r => r.id == i)

/-- The column list of `update_log_entry`'s `UPDATE`: the fourteen data
columns.  `id`, `sort_id`, `qsl_sent`, `qsl_rcvd` are *not* written. -/
def applyUpdate (l r : LogRecord) : LogRecord :=
  { l with
    station_callsign := r.station_callsign, qso_date := r.qso_date,
    time_on := r.time_on, band := r.band, band_rx := r.band_rx,
    freq := r.freq, freq_rx := r.freq_rx, mode := r.mode,
    submode := r.submode, rst_sent := r.rst_sent, rst_rcvd := r.rst_rcvd,
    comment := r.comment, sat_name := r.sat_name, prop_mode := r.prop_mode }

/-- `update_log_entry`: one `execute_query` statement.  `ok` is the fate of
that single-statement transaction: on a sqlite error `execute_query` rolls it
back and returns `False`, leaving the store unchanged. -/
def updateLogEntry (db : DB) (i : Nat) (r : LogRecord) (ok : Bool) : DB × Bool :=
  if ok then
    ({ db with logs := db.logs.map fun l => if l.id == i then applyUpdate l r else l }, true)
  else (db, false)

/-- `delete_log`: delete the log's link rows, then the log row (two
independently-committed statements; the success path). -/
def deleteLog (db : DB) (i : Nat) : DB :=
  { db with links := db.links.filter (fun p => p.2 != i),
            logs := db.logs.filter (fun r => r.id != i) }

/-- `log_exists`: fetch candidates matching case-insensitively on
(callsign, date, band, mode), then return the first whose time is within the
5-minute window of the given time; `ValueError` on a candidate's time skips
it, `ValueError` on the given time returns `None`. -/
def logExists (db : DB) (call date time band mode : String) : Option Nat :=
  let cands := db.logs.filter fun r =>
    upperStr r.station_callsign == upperStr call && r.qso_date == date &&
    upperStr r.band == upperStr band && upperStr r.mode == upperStr mode
  if cands.isEmpty then none
  else
    match parseHHMMSS time with
    | none => none
    | some t =>
      cands.findSome? fun r =>
        match parseHHMMSS r.time_on with
        | none => none
        | some u => if tdist t u ≤ timeWindow then some r.id else none

/-! ## Duplicate reconciler (`find_all_duplicates` + the merge loop) -/

/-- The case-insensitive group key `(station_callsign, qso_date, band, mode)`
of the `GROUP BY UPPER(...)` query. -/
def upperKey (r : LogRecord) : String × String × String × String :=
  (upperStr r.station_callsign, r.qso_date, upperStr r.band, upperStr r.mode)

/-- The inner-loop absorption test: member `x` is unparsed-skipped, or lies
within 5 minutes of the *seed's* time `t`. -/
def nearSeed (t : Nat) (x : Nat × String) : Bool :=
  match parseHHMMSS x.2 with
  | some u => decide (tdist t u ≤ timeWindow)
  | none => false

/-- The visited-set clustering loop of `find_all_duplicates`, on the
time-sorted `(id, time_on)` rows of one group.  The list argument is the
unvisited remainder: the head is the next seed (Python's next unvisited outer
index); absorbing a member marks it visited, i.e. removes it from the
remainder.  A seed with unparsable time is skipped (`continue`).  Fuel is the
initial length, which the remainder never exceeds. -/
def clusterizeAux : Nat → List (Nat × String) → List (List (Nat × String))
  | 0, _ => []
  | _ + 1, [] => []
  | fuel + 1, e :: rest =>
    match parseHHMMSS e.2 with
    | none => clusterizeAux fuel rest
    | some t =>
      if (rest.filter (nearSeed t)).isEmpty then
        clusterizeAux fuel (rest.filter (fun x => !nearSeed t x))
      else
        (e :: rest.filter (nearSeed t)) ::
          clusterizeAux fuel (rest.filter (fun x => !nearSeed t x))

/-- Single-link clustering of one group (clusters of size ≥ 2 only). -/
def clusterize (l : List (Nat × String)) : List (List (Nat × String)) :=
  clusterizeAux l.length l

/-- The `(id, time_on)` rows of the group with key `k`, `ORDER BY time_on`. -/
def groupMembers (db : DB) (k : String × String × String × String) : List (Nat × String) :=
  sortBy (fun a b => strLe a.2.data b.2.data)
    ((db.logs.filter (fun r => decide (upperKey r = k))).map (fun r => (r.id, r.time_on)))

/-- `find_all_duplicates`: group by the case-insensitive key (`HAVING
COUNT(id) > 1`), cluster each group by the seed-anchored 5-minute rule, and
emit the clusters of size ≥ 2 as sets of ids. -/
def findAllDuplicates (db : DB) : List (List Nat) :=
  let keys := (db.logs.map upperKey).dedup
  (keys.filter fun k =>
      2 ≤ (db.logs.filter (fun r => decide (upperKey r = k))).length).flatMap
    fun k => (clusterize (groupMembers db k)).map (fun c => c.map Prod.fst)

/-- The first-non-empty-wins copy rule of the merge loop: the member's value
is taken only if it is truthy and the canonical's is falsy. -/
def mergeVal (m d : String) : String :=
  if d != "" && m == "" then d else m

/-- The same rule for the integer `sort_id` key (Python falsiness of `0`). -/
def mergeValN (m d : Nat) : Nat :=
  if d != 0 && m == 0 then d else m

/-- One iteration of the member loop in `check_for_duplicates`: fold member
`d` into the in-memory canonical `m`, returning the updated record and the
member's fresh `needs_update` flag (the Python variable is reset to `False`
for each member, so only the last member's flag survives). -/
def foldMemberNU (m d : LogRecord) : LogRecord × Bool :=
  let m1 : LogRecord :=
    { id := m.id
      station_callsign := mergeVal m.station_callsign d.station_callsign
      qso_date := mergeVal m.qso_date d.qso_date
      time_on := mergeVal m.time_on d.time_on
      band := mergeVal m.band d.band
      band_rx := mergeVal m.band_rx d.band_rx
      freq := mergeVal m.freq d.freq
      freq_rx := mergeVal m.freq_rx d.freq_rx
      mode := mergeVal m.mode d.mode
      submode := mergeVal m.submode d.submode
      rst_sent := mergeVal m.rst_sent d.rst_sent
      rst_rcvd := mergeVal m.rst_rcvd d.rst_rcvd
      comment := mergeVal m.comment d.comment
      sat_name := mergeVal m.sat_name d.sat_name
      prop_mode := mergeVal m.prop_mode d.prop_mode
      qsl_sent := mergeVal m.qsl_sent d.qsl_sent
      qsl_rcvd := mergeVal m.qsl_rcvd d.qsl_rcvd
      sort_id := mergeValN m.sort_id d.sort_id }
  let nu1 :=
    (d.station_callsign != "" && m.station_callsign == "") ||
    (d.qso_date != "" && m.qso_date == "") ||
    (d.time_on != "" && m.time_on == "") ||
    (d.band != "" && m.band == "") ||
    (d.band_rx != "" && m.band_rx == "") ||
    (d.freq != "" && m.freq == "") ||
    (d.freq_rx != "" && m.freq_rx == "") ||
    (d.mode != "" && m.mode == "") ||
    (d.submode != "" && m.submode == "") ||
    (d.rst_sent != "" && m.rst_sent == "") ||
    (d.rst_rcvd != "" && m.rst_rcvd == "") ||
    (d.comment != "" && m.comment == "") ||
    (d.sat_name != "" && m.sat_name == "") ||
    (d.prop_mode != "" && m.prop_mode == "") ||
    (d.qsl_sent != "" && m.qsl_sent == "") ||
    (d.qsl_rcvd != "" && m.qsl_rcvd == "") ||
    (d.sort_id != 0 && m.sort_id == 0)
  let newC := d.comment
  let oldC := m1.comment
  if newC != "" && !containsSub newC.data oldC.data then
    ({ m1 with comment := pyStrip (oldC ++ " | MERGED: " ++ newC) }, true)
  else (m1, nu1)

/-- The record component of the member fold. -/
def foldMember (m d : LogRecord) : LogRecord := (foldMemberNU m d).1

/-- One iteration of the member loop in `check_for_duplicates`: a missing
member row is skipped (`continue`, leaving state untouched); a present one is
folded into the running canonical and appended to `logs_to_delete`. -/
def mergeStep (db : DB) (st : LogRecord × Bool × List Nat) (did : Nat) :
    LogRecord × Bool × List Nat :=
  match getLogDetails db did with
  | none => st
  | some d => ((foldMemberNU st.1 d).1, (foldMemberNU st.1 d).2, st.2.2 ++ [did])

/-- The per-cluster body of `check_for_duplicates`: pick the lowest id of the
cluster as canonical, fold every other (present) member into it in id order,
call `update_log_entry` if the *last* member's `needs_update` flag is set
(`updOk` is that statement's transaction fate), then delete every folded
member — the deletes run regardless of the update's outcome.  A missing
canonical row would raise `TypeError` in Python (`dict(None)`); that branch is
unreachable for scan-produced clusters and left as a no-op. -/
def mergeOneCluster (db : DB) (cluster : List Nat) (updOk : Bool) : DB :=
  match sortNat cluster.dedup with
  | [] => db
  | master :: rest =>
    match getLogDetails db master with
    | none => db
    | some m0 =>
      let st := rest.foldl (mergeStep db) (m0, false, [])
      let db1 := if st.2.1 then (updateLogEntry db master st.1 updOk).1 else db
      st.2.2.foldl (fun d i => deleteLog d i) db1

/-! ## Card store operations -/

/-- Set the direction's status flag to `'Y'` (`qsl_rcvd` for RC, `qsl_sent`
for TC). -/
def setFlag (dir : Dir) (r : LogRecord) : LogRecord :=
  match dir with
  | .RC => { r with qsl_rcvd := "Y" }
  | .TC => { r with qsl_sent := "Y" }

/-- Reset the direction's status flag to `'N'`. -/
def clearFlag (dir : Dir) (r : LogRecord) : LogRecord :=
  match dir with
  | .RC => { r with qsl_rcvd := "N" }
  | .TC => { r with qsl_sent := "N" }

/-- `add_qsl_card`: one card row, one link row per log id, and the flag update,
all inside a single transaction committed once; any sqlite error (a primary
key violation on the card id or on a duplicated link pair) rolls the whole
transaction back and returns `False`. -/
def addQslCard (db : DB) (qslId : String) (logIds : List Nat) (dir : Dir) (t : Nat) :
    DB × Bool :=
  if db.cards.any (fun c => c.qsl_id == qslId) ∨ ¬ logIds.Nodup then (db, false)
  else
    ({ logs := db.logs.map (fun r => if r.id ∈ logIds then setFlag dir r else r),
       cards := db.cards ++ [⟨qslId, dir, "In Stock", t⟩],
       links := db.links ++ logIds.map (fun l => (qslId, l)) }, true)

/-- `recycle_qsl_card`: find the card of that direction linked to the log
(the join returns at most one under the one-card-per-direction invariant, so
the scan order is immaterial); reset the flag, delete the one link row, and
delete the card row too if no links to it remain.  Returns `False` untouched
when no such card exists. -/
def recycleQslCard (db : DB) (logId : Nat) (dir : Dir) : DB × Bool :=
  match (db.cards.filter (fun c => decide (c.direction = dir))).find?
      (fun c => db.links.any (fun p => p.1 == c.qsl_id && p.2 == logId)) with
  | none => (db, false)
  | some c =>
    let q := c.qsl_id
    let db1 := { db with logs := db.logs.map fun (r : LogRecord) => if r.id == logId then clearFlag dir r else r }
    let db2 := { db1 with links := db1.links.filter fun p => !(p.1 == q && p.2 == logId) }
    let db3 :=
      if db2.links.any (fun p => p.1 == q) then db2
      else { db2 with cards := db2.cards.filter fun c2 => c2.qsl_id != q }
    (db3, true)

/-- `reset_all_qsl_data`: three `execute_query` statements, each its own
committed transaction (`f1 f2 f3` are their fates; a failed statement is
rolled back alone and swallowed).  Returns `True` unconditionally — the
`except` is unreachable because `execute_query` never raises. -/
def resetAllQslData (db : DB) (f1 f2 f3 : Bool) : DB × Bool :=
  let db1 := if f1 then db else { db with links := [] }
  let db2 := if f2 then db1 else { db1 with cards := [] }
  let db3 :=
    if f3 then db2
    else { db2 with logs := db2.logs.map fun r => { r with qsl_sent := "N", qsl_rcvd := "N" } }
  (db3, true)

/-- `reorder_logs_by_time`: fetch all logs `ORDER BY qso_date, time_on`, then
rewrite each row's `sort_id` to its 1-based rank with one independently
committed `execute_query` per row (`fail i` is row `i`'s fate).  Returns
`True`: per-row failures are swallowed by `execute_query`. -/
def reorderLogsByTime (db : DB) (fail : Nat → Bool) : DB × Bool :=
  let le := fun (r s : LogRecord) =>
    if r.qso_date = s.qso_date then strLe r.time_on.data s.time_on.data
    else strLe r.qso_date.data s.qso_date.data
  let sorted := sortBy le db.logs
  (sorted.enum.foldl
    (fun (d : DB) (p : Nat × LogRecord) =>
      if fail p.1 then d
      else { d with logs := d.logs.map fun r =>
               if r.id == p.2.id then { r with sort_id := p.1 + 1 } else r })
    db, true)

/-! ## Identifier generator (`QSL_ID_Generator`) -/

/-- `ORDER BY created_at DESC, qsl_id DESC LIMIT 1`: `c` beats `x`. -/
def moreRecent (c x : Card) : Bool :=
  x.created_at < c.created_at ||
    (x.created_at == c.created_at && !(strLe c.qsl_id.data x.qsl_id.data))

/-- The most recently created card of a direction. -/
def mostRecentCard (db : DB) (dir : Dir) : Option Card :=
  (db.cards.filter (fun c => decide (c.direction = dir))).foldl
    (fun best c =>
      match best with
      | none => some c
      | some x => if moreRecent c x then some c else some x)
    none

/-- `get_next_serial`: read the most recently created card of the direction;
if its leading two characters equal the current two-digit year, return
`int(id[2:8]) + 1`, else 1.  (`parseDec` models `int()`; the slice of every
generated id is all digits.) -/
def getNextSerial (db : DB) (dir : Dir) (y : Nat) : Nat :=
  match mostRecentCard db dir with
  | none => 1
  | some c =>
    if strSlice c.qsl_id 0 2 = yearStr y then parseDec (strSlice c.qsl_id 2 8).data + 1
    else 1

/-- The direction code embedded in identifiers. -/
def dirCode : Dir → String
  | .RC => "RC"
  | .TC => "TC"

/-- `QSL_ID_Generator.generate`: 2-digit year ++ `%06d` serial ++ direction
code ++ 16 uppercase hex chars of entropy. -/
def generate (db : DB) (dir : Dir) (y : Nat) (entropy : Nat) : String :=
  yearStr y ++ pad6 (getNextSerial db dir y) ++ dirCode dir ++ hex16 entropy

/-- Uppercase-hex character class `[0-9A-F]`. -/
def isHexUpChar (c : Char) : Bool :=
  c.isDigit || (decide ('A' ≤ c) && decide (c ≤ 'F'))

/-- The specification's identifier pattern `^\d{2}\d{6}(RC|TC)[0-9A-F]{16}$`. -/
def matchesIdPattern (s : String) : Bool :=
  let l := s.data
  l.length == 26 && (l.take 8).all Char.isDigit &&
    ((l.drop 8).take 2 == ['R', 'C'] || (l.drop 8).take 2 == ['T', 'C']) &&
    (l.drop 10).all isHexUpChar

/-! ## Batch issuance (`run_print_job`, issuance only — printing is external) -/

/-- The per-batch issuance mode chosen once in `print_qsl_card`. -/
inductive PrintMode | single | multi

/-- `run_print_job`: in single mode one identifier is generated and linked to
every log; in multi mode one identifier is generated per log, each
`add_qsl_card` call committed independently.  `entropy`/`stamp` give the
random suffix and `created_at` of the `k`-th generate call; the result pairs
the store with `processed_count`. -/
def runPrintJob (db : DB) (logIds : List Nat) (dir : Dir) (mode : PrintMode)
    (y : Nat) (entropy : Nat → Nat) (stamp : Nat → Nat) : DB × Nat :=
  match mode with
  | .single =>
    let qslId := generate db dir y (entropy 0)
    let r := addQslCard db qslId logIds dir (stamp 0)
    if r.2 then (r.1, logIds.length) else (r.1, 0)
  | .multi =>
    logIds.enum.foldl
      (fun (st : DB × Nat) p =>
        let qslId := generate st.1 dir y (entropy p.1)
        let r := addQslCard st.1 qslId [p.2] dir (stamp p.1)
        if r.2 then (r.1, st.2 + 1) else (r.1, st.2))
      (db, 0)

end QSL

namespace QSL

/-! ## Helper lemmas: insertion sort -/

theorem mem_insertBy {le : α → α → Bool} {x a : α} :
    ∀ {l : List α}, a ∈ insertBy le x l ↔ a = x ∨ a ∈ l := by
  intro l
  induction l with
  | nil => simp [insertBy]
  | cons y ys ih =>
    unfold insertBy
    by_cases h : le x y = true
    · simp [h]
    · simp only [h]
      simp [ih, or_comm, or_assoc, or_left_comm]

theorem mem_sortBy {le : α → α → Bool} {a : α} :
    ∀ {l : List α}, a ∈ sortBy le l ↔ a ∈ l := by
  intro l
  induction l with
  | nil => simp [sortBy]
  | cons y ys ih => simp [sortBy, mem_insertBy, ih]

theorem insertNat_pairwise (x : Nat) :
    ∀ (l : List Nat), l.Pairwise (· ≤ ·) →
      (insertBy (fun a b => a ≤ b) x l).Pairwise (· ≤ ·) := by
  intro l
  induction l with
  | nil => simp [insertBy]
  | cons y ys ih =>
    intro h
    rw [List.pairwise_cons] at h
    unfold insertBy
    by_cases hxy : x ≤ y
    · simp only [decide_eq_true hxy, if_true]
      rw [List.pairwise_cons]
      refine ⟨?_, List.pairwise_cons.2 h⟩
      intro b hb
      rcases List.mem_cons.1 hb with rfl | hb
      · exact hxy
      · exact le_trans hxy (h.1 b hb)
    · have hd : (decide (x ≤ y)) = false := decide_eq_false hxy
      rw [hd, if_neg Bool.false_ne_true]
      rw [List.pairwise_cons]
      refine ⟨?_, ih h.2⟩
      intro b hb
      rcases mem_insertBy.1 hb with rfl | hb
      · omega
      · exact h.1 b hb

theorem sortNat_pairwise : ∀ (l : List Nat), (sortNat l).Pairwise (· ≤ ·) := by
  intro l
  induction l with
  | nil => exact List.Pairwise.nil
  | cons y ys ih => exact insertNat_pairwise y _ ih

/-- The canonical id chosen by the merge loop: `sorted(list(cluster))[0]`. -/
def masterId (c : List Nat) : Nat := (sortNat c.dedup).headI

theorem masterId_mem_le {c : List Nat} {x : Nat} (hx : x ∈ c) :
    masterId c ∈ c ∧ masterId c ≤ x := by
  have hxd : x ∈ sortNat c.dedup := mem_sortBy.2 (List.mem_dedup.2 hx)
  have hne : sortNat c.dedup ≠ [] := by
    intro h
    rw [h] at hxd
    exact List.not_mem_nil x hxd
  rcases hs : sortNat c.dedup with _ | ⟨m, rest⟩
  · exact absurd hs hne
  · have hm : masterId c = m := by rw [masterId, hs]; rfl
    have hpw := sortNat_pairwise c.dedup
    rw [hs, List.pairwise_cons] at hpw
    constructor
    · rw [hm]
      have : m ∈ sortNat c.dedup := by rw [hs]; exact List.mem_cons_self m rest
      exact List.mem_dedup.1 (mem_sortBy.1 this)
    · rw [hm]
      rw [hs] at hxd
      rcases List.mem_cons.1 hxd with rfl | hx2
      · exact le_refl x
      · exact hpw.1 x hx2

/-! ## Helper lemmas: decimal rendering round-trips -/

theorem natDecAux_zero (f : Nat) : natDecAux f 0 = [] := by
  cases f <;> simp [natDecAux]

theorem digitChar_isDigit (d : Nat) : (digitChar d).isDigit = true := by
  rcases d with _ | _ | _ | _ | _ | _ | _ | _ | _ | d <;> rfl

theorem digitChar_toNat {d : Nat} (h : d < 10) : (digitChar d).toNat - 48 = d := by
  interval_cases d <;> rfl

theorem parseDec_append (l : List Char) (c : Char) :
    parseDec (l ++ [c]) = parseDec l * 10 + (c.toNat - 48) := by
  simp [parseDec, List.foldl_append]

theorem parseDec_natDecAux :
    ∀ (f n : Nat), n < 10 ^ f → parseDec (natDecAux f n) = n := by
  intro f
  induction f with
  | zero =>
    intro n h
    simp at h
    subst h
    rfl
  | succ f ih =>
    intro n h
    by_cases h0 : n = 0
    · subst h0; rw [natDecAux_zero]; rfl
    · rw [natDecAux, if_neg h0, parseDec_append,
        digitChar_toNat (Nat.mod_lt _ (by norm_num)),
        ih (n / 10) (by
          rw [Nat.div_lt_iff_lt_mul (by norm_num : 0 < 10)]
          calc n < 10 ^ (f + 1) := h
            _ = 10 ^ f * 10 := by ring)]
      omega

theorem natDecAux_length :
    ∀ (f n k : Nat), n < 10 ^ k → k ≤ f → (natDecAux f n).length ≤ k := by
  intro f
  induction f with
  | zero =>
    intro n k _ hk
    simp [natDecAux]
  | succ f ih =>
    intro n k h hk
    by_cases h0 : n = 0
    · subst h0; rw [natDecAux_zero]; simp
    · rcases k with _ | k
      · simp at h; omega
      · rw [natDecAux, if_neg h0]
        rw [List.length_append]
        have := ih (n / 10) k (by
          rw [Nat.div_lt_iff_lt_mul (by norm_num : 0 < 10)]
          calc n < 10 ^ (k + 1) := h
            _ = 10 ^ k * 10 := by ring) (by omega)
        simp
        omega

theorem natDecAux_digits :
    ∀ (f n : Nat), (natDecAux f n).all Char.isDigit = true := by
  intro f
  induction f with
  | zero => intro n; rfl
  | succ f ih =>
    intro n
    by_cases h0 : n = 0
    · subst h0; rw [natDecAux_zero]; rfl
    · rw [natDecAux, if_neg h0, List.all_append]
      simp [ih, digitChar_isDigit]

theorem natDecAux_ne_nil {f n : Nat} (h0 : n ≠ 0) (hf : 0 < f) :
    natDecAux f n ≠ [] := by
  rcases f with _ | f
  · omega
  · simp [natDecAux, h0]

theorem natDec_length_le {n k : Nat} (h : n < 10 ^ k) (h1 : 1 ≤ k) (h24 : k ≤ 24) :
    (natDec n).length ≤ k := by
  rw [natDec]
  by_cases h0 : n = 0
  · rw [if_pos h0]
    have : ("0" : String).length = 1 := rfl
    omega
  · rw [if_neg h0]
    exact natDecAux_length 24 n k h h24

theorem natDec_digits (n : Nat) : (natDec n).data.all Char.isDigit = true := by
  rw [natDec]
  by_cases h0 : n = 0
  · rw [if_pos h0]; rfl
  · rw [if_neg h0]
    exact natDecAux_digits 24 n

theorem parseDec_replicate_zero (k : Nat) (l : List Char) :
    parseDec (List.replicate k '0' ++ l) = parseDec l := by
  induction k with
  | zero => rfl
  | succ k ih =>
    rw [List.replicate_succ, List.cons_append]
    show parseDec (List.replicate k '0' ++ l) = parseDec l
    exact ih

theorem parseDec_natDec {n : Nat} (h : n < 10 ^ 24) : parseDec (natDec n).data = n := by
  rw [natDec]
  by_cases h0 : n = 0
  · simp [h0]; rfl
  · rw [if_neg h0]
    exact parseDec_natDecAux 24 n h

theorem pad6_length {s : Nat} (h : s ≤ 999999) : (pad6 s).data.length = 6 := by
  have hlt : s < 10 ^ 6 := by omega
  have hle : (natDec s).length ≤ 6 :=
    natDec_length_le hlt (by norm_num) (by norm_num)
  rw [pad6]
  by_cases hl : (natDec s).length < 6
  · rw [if_pos hl]
    show (List.replicate (6 - (natDec s).length) '0' ++ (natDec s).data).length = 6
    rw [List.length_append, List.length_replicate]
    have : (natDec s).data.length = (natDec s).length := rfl
    omega
  · rw [if_neg hl]
    have : (natDec s).data.length = (natDec s).length := rfl
    omega

theorem pad6_digits (s : Nat) : (pad6 s).data.all Char.isDigit = true := by
  rw [pad6]
  by_cases hl : (natDec s).length < 6
  · rw [if_pos hl]
    show (List.replicate (6 - (natDec s).length) '0' ++ (natDec s).data).all Char.isDigit = true
    rw [List.all_append, Bool.and_eq_true]
    refine ⟨?_, natDec_digits s⟩
    rw [List.all_eq_true]
    intro c hc
    rw [List.eq_of_mem_replicate hc]
    rfl
  · rw [if_neg hl]
    exact natDec_digits s

theorem parseDec_pad6 {s : Nat} (h : s ≤ 999999) : parseDec (pad6 s).data = s := by
  have h24 : s < 10 ^ 24 := by
    calc s ≤ 999999 := h
      _ < 10 ^ 24 := by norm_num
  rw [pad6]
  by_cases hl : (natDec s).length < 6
  · rw [if_pos hl]
    show parseDec (List.replicate (6 - (natDec s).length) '0' ++ (natDec s).data) = s
    rw [parseDec_replicate_zero]
    exact parseDec_natDec h24
  · rw [if_neg hl]
    exact parseDec_natDec h24

theorem natDec_length_pos (n : Nat) : 1 ≤ (natDec n).length := by
  rw [natDec]
  by_cases h0 : n = 0
  · rw [if_pos h0]
    have : ("0" : String).length = 1 := rfl
    omega
  · rw [if_neg h0]
    show 1 ≤ (natDecAux 24 n).length
    have := natDecAux_ne_nil h0 (by norm_num : 0 < 24)
    cases he : natDecAux 24 n with
    | nil => exact absurd he this
    | cons a l => simp

theorem pad2_length {n : Nat} (h : n < 100) : (pad2 n).data.length = 2 := by
  rw [pad2]
  by_cases h10 : n < 10
  · rw [if_pos h10]
    show ('0' :: (natDec n).data).length = 2
    rw [List.length_cons]
    have h1 : (natDec n).length ≤ 1 :=
      natDec_length_le (by omega : n < 10 ^ 1) (by norm_num) (by norm_num)
    have h2 : 1 ≤ (natDec n).length := natDec_length_pos n
    have : (natDec n).data.length = (natDec n).length := rfl
    omega
  · rw [if_neg h10]
    have h1 : (natDec n).length ≤ 2 :=
      natDec_length_le (by omega : n < 10 ^ 2) (by norm_num) (by norm_num)
    have h2 : 2 ≤ (natDec n).length := by
      rw [natDec, if_neg (by omega : ¬ n = 0)]
      show 2 ≤ (natDecAux 24 n).length
      have h9 : ¬ n = 0 := by omega
      rw [natDecAux, if_neg h9]
      rw [List.length_append]
      have h5 : n / 10 ≠ 0 := by omega
      have := natDecAux_ne_nil h5 (by norm_num : 0 < 23)
      cases he : natDecAux 23 (n / 10) with
      | nil => exact absurd he this
      | cons a l => simp
    have : (natDec n).data.length = (natDec n).length := rfl
    omega

theorem pad2_digits (n : Nat) : (pad2 n).data.all Char.isDigit = true := by
  rw [pad2]
  by_cases h10 : n < 10
  · rw [if_pos h10]
    show ('0' :: (natDec n).data).all Char.isDigit = true
    rw [List.all_cons, Bool.and_eq_true]
    exact ⟨rfl, natDec_digits n⟩
  · rw [if_neg h10]
    exact natDec_digits n

theorem yearStr_length (y : Nat) : (yearStr y).data.length = 2 :=
  pad2_length (Nat.mod_lt y (by norm_num))

theorem yearStr_digits (y : Nat) : (yearStr y).data.all Char.isDigit = true :=
  pad2_digits (y % 100)

/-! ## Helper lemmas: hex rendering -/

theorem hexDigit_isHexUp (d : Nat) : isHexUpChar (hexDigit d) = true := by
  rcases d with _ | _ | _ | _ | _ | _ | _ | _ | _ | _ | _ | _ | _ | _ | _ | d <;> rfl

theorem hex16_length (e : Nat) : (hex16 e).data.length = 16 := by
  rw [hex16]
  show (((List.range 16).reverse).map fun i => hexDigit (e / 16 ^ i % 16)).length = 16
  rw [List.length_map, List.length_reverse, List.length_range]

theorem hex16_isHexUp (e : Nat) : (hex16 e).data.all isHexUpChar = true := by
  rw [hex16]
  show (((List.range 16).reverse).map fun i => hexDigit (e / 16 ^ i % 16)).all isHexUpChar = true
  rw [List.all_eq_true]
  intro c hc
  rcases List.mem_map.1 hc with ⟨i, _, rfl⟩
  exact hexDigit_isHexUp _

end QSL

namespace QSL

/-! ## Helper lemmas: permutation of the insertion sort -/

theorem perm_insertBy (le : α → α → Bool) (x : α) :
    ∀ (l : List α), List.Perm (insertBy le x l) (x :: l) := by
  intro l
  induction l with
  | nil => exact List.Perm.refl _
  | cons y ys ih =>
    unfold insertBy
    by_cases h : le x y = true
    · rw [if_pos h]
    · rw [if_neg h]
      exact (List.Perm.cons y ih).trans (List.Perm.swap x y ys)

theorem perm_sortBy (le : α → α → Bool) :
    ∀ (l : List α), List.Perm (sortBy le l) l := by
  intro l
  induction l with
  | nil => exact List.Perm.refl _
  | cons y ys ih =>
    exact (perm_insertBy le y (sortBy le ys)).trans (List.Perm.cons y ih)

/-! ## Helper lemmas: string concatenation slices -/

theorem take8_of_parts {a b c d : List Char} (ha : a.length = 2) (hb : b.length = 6) :
    (a ++ (b ++ (c ++ d))).take 8 = a ++ b := by
  rw [List.take_append_eq_append_take, List.take_of_length_le (by omega), ha,
    List.take_append_eq_append_take, List.take_of_length_le (by omega), hb]
  simp

theorem drop8_of_parts {a b c d : List Char} (ha : a.length = 2) (hb : b.length = 6) :
    (a ++ (b ++ (c ++ d))).drop 8 = c ++ d := by
  rw [List.drop_append_eq_append_drop, List.drop_of_length_le (by omega), ha,
    List.drop_append_eq_append_drop, List.drop_of_length_le (by omega), hb]
  simp

theorem drop10_of_parts {a b c d : List Char} (ha : a.length = 2) (hb : b.length = 6)
    (hc : c.length = 2) : (a ++ (b ++ (c ++ d))).drop 10 = d := by
  rw [List.drop_append_eq_append_drop, List.drop_of_length_le (by omega), ha,
    List.drop_append_eq_append_drop, List.drop_of_length_le (by omega), hb,
    List.drop_append_eq_append_drop, List.drop_of_length_le (by omega), hc]
  simp

theorem generate_data (db : DB) (dir : Dir) (y : Nat) (e : Nat) :
    (generate db dir y e).data =
      (yearStr y).data ++ ((pad6 (getNextSerial db dir y)).data ++
        ((dirCode dir).data ++ (hex16 e).data)) := by
  simp [generate]

theorem strSlice_02 {s : String} {a rest : List Char}
    (h : s.data = a ++ rest) (ha : a.length = 2) : strSlice s 0 2 = ⟨a⟩ := by
  rw [strSlice, h]
  rw [List.drop_zero]
  rw [List.take_left' ha]

theorem strSlice_28 {s : String} {a b rest : List Char}
    (h : s.data = a ++ (b ++ rest)) (ha : a.length = 2) (hb : b.length = 6) :
    strSlice s 2 8 = ⟨b⟩ := by
  rw [strSlice, h, List.drop_left' ha]
  show String.mk ((b ++ rest).take 6) = ⟨b⟩
  rw [List.take_left' hb]

/-! ## Helper lemmas: log-id bookkeeping of the merge loop -/

theorem updateLogEntry_logIds (db : DB) (i : Nat) (r : LogRecord) (ok : Bool) :
    ((updateLogEntry db i r ok).1.logs).map LogRecord.id = db.logs.map LogRecord.id := by
  cases ok
  · rfl
  · show ((db.logs.map fun l => if l.id == i then applyUpdate l r else l).map LogRecord.id)
      = db.logs.map LogRecord.id
    rw [List.map_map]
    apply List.map_congr_left
    intro l _
    show (if l.id == i then applyUpdate l r else l).id = l.id
    by_cases h : (l.id == i) = true
    · rw [if_pos h]; rfl
    · rw [if_neg h]

theorem deleteLog_logIds (db : DB) (i : Nat) :
    (deleteLog db i).logs.map LogRecord.id
      = (db.logs.map LogRecord.id).filter (fun x => x != i) := by
  show ((db.logs.filter fun r => r.id != i).map LogRecord.id)
    = (db.logs.map LogRecord.id).filter (fun x => x != i)
  rw [List.filter_map]
  rfl

theorem foldl_deleteLog_logIds :
    ∀ (dels : List Nat) (d1 d2 : DB),
      d1.logs.map LogRecord.id = d2.logs.map LogRecord.id →
      (dels.foldl (fun d i => deleteLog d i) d1).logs.map LogRecord.id
        = (dels.foldl (fun d i => deleteLog d i) d2).logs.map LogRecord.id := by
  intro dels
  induction dels with
  | nil => intro d1 d2 h; exact h
  | cons x xs ih =>
    intro d1 d2 h
    apply ih
    rw [deleteLog_logIds, deleteLog_logIds, h]

theorem foldl_deleteLog_keeps_out :
    ∀ (dels : List Nat) (d : DB) (x : Nat),
      x ∉ d.logs.map LogRecord.id →
      x ∉ ((dels.foldl (fun d i => deleteLog d i) d).logs.map LogRecord.id) := by
  intro dels
  induction dels with
  | nil => intro d x h; exact h
  | cons y ys ih =>
    intro d x h
    apply ih
    rw [deleteLog_logIds]
    intro hc
    exact h (List.mem_of_mem_filter hc)

theorem foldl_deleteLog_removes :
    ∀ (dels : List Nat) (d : DB) (x : Nat),
      x ∈ dels →
      x ∉ ((dels.foldl (fun d i => deleteLog d i) d).logs.map LogRecord.id) := by
  intro dels
  induction dels with
  | nil => intro d x h; exact absurd h (List.not_mem_nil x)
  | cons y ys ih =>
    intro d x h
    rcases List.mem_cons.1 h with rfl | h2
    · rw [List.foldl_cons]
      apply foldl_deleteLog_keeps_out
      rw [deleteLog_logIds]
      intro hc
      rcases List.mem_filter.1 hc with ⟨_, hne⟩
      simp at hne
    · exact ih _ x h2

theorem mergeFold_dels (db : DB) :
    ∀ (rest : List Nat) (m : LogRecord) (nu : Bool) (acc : List Nat),
      (rest.foldl (mergeStep db) (m, nu, acc)).2.2
        = acc ++ rest.filter (fun i => (getLogDetails db i).isSome) := by
  intro rest
  induction rest with
  | nil => intro m nu acc; simp
  | cons did ds ih =>
    intro m nu acc
    rw [List.foldl_cons, List.filter_cons]
    cases hd : getLogDetails db did with
    | none =>
      have hstep : mergeStep db (m, nu, acc) did = (m, nu, acc) := by
        rw [mergeStep, hd]
      rw [hstep]
      show (ds.foldl (mergeStep db) (m, nu, acc)).2.2
        = acc ++ (if Option.isSome (none : Option LogRecord) = true then
            did :: ds.filter (fun i => (getLogDetails db i).isSome)
          else ds.filter (fun i => (getLogDetails db i).isSome))
      rw [if_neg (by simp)]
      exact ih m nu acc
    | some r =>
      have hstep : mergeStep db (m, nu, acc) did
          = ((foldMemberNU m r).1, (foldMemberNU m r).2, acc ++ [did]) := by
        rw [mergeStep, hd]
      rw [hstep]
      show (ds.foldl (mergeStep db) ((foldMemberNU m r).1, (foldMemberNU m r).2, acc ++ [did])).2.2
        = acc ++ (if Option.isSome (some r) = true then
            did :: ds.filter (fun i => (getLogDetails db i).isSome)
          else ds.filter (fun i => (getLogDetails db i).isSome))
      rw [if_pos (by simp)]
      rw [ih _ _ (acc ++ [did])]
      simp

end QSL

namespace QSL

/-! ## Helper lemmas: the clustering loop -/

theorem clusterizeAux_sound :
    ∀ (fuel : Nat) (l C : List (Nat × String)), C ∈ clusterizeAux fuel l →
      ∃ e t tail, C = e :: tail ∧ e ∈ l ∧ parseHHMMSS e.2 = some t ∧ tail ≠ [] ∧
        ∀ x ∈ tail, x ∈ l ∧ nearSeed t x = true := by
  intro fuel
  induction fuel with
  | zero => intro l C h; simp [clusterizeAux] at h
  | succ fuel ih =>
    intro l C h
    cases l with
    | nil => simp [clusterizeAux] at h
    | cons e rest =>
      rcases hp : parseHHMMSS e.2 with _ | t
      · simp only [clusterizeAux, hp] at h
        rcases ih rest C h with ⟨e1, t1, tail1, hC, he1, hp1, ht1, hall⟩
        exact ⟨e1, t1, tail1, hC, List.mem_cons_of_mem _ he1, hp1, ht1,
          fun x hx => ⟨List.mem_cons_of_mem _ (hall x hx).1, (hall x hx).2⟩⟩
      · simp only [clusterizeAux, hp] at h
        by_cases habs : ((rest.filter (nearSeed t)).isEmpty) = true
        · rw [if_pos habs] at h
          rcases ih _ C h with ⟨e1, t1, tail1, hC, he1, hp1, ht1, hall⟩
          exact ⟨e1, t1, tail1, hC,
            List.mem_cons_of_mem _ (List.mem_of_mem_filter he1), hp1, ht1,
            fun x hx => ⟨List.mem_cons_of_mem _ (List.mem_of_mem_filter (hall x hx).1),
              (hall x hx).2⟩⟩
        · rw [if_neg habs] at h
          rcases List.mem_cons.1 h with rfl | h2
          · refine ⟨e, t, rest.filter (nearSeed t), rfl, List.mem_cons_self _ _, hp, ?_, ?_⟩
            · intro hnil
              rw [hnil] at habs
              exact habs rfl
            · intro x hx
              exact ⟨List.mem_cons_of_mem _ (List.mem_of_mem_filter hx),
                (List.mem_filter.1 hx).2⟩
          · rcases ih _ C h2 with ⟨e1, t1, tail1, hC, he1, hp1, ht1, hall⟩
            exact ⟨e1, t1, tail1, hC,
              List.mem_cons_of_mem _ (List.mem_of_mem_filter he1), hp1, ht1,
              fun x hx => ⟨List.mem_cons_of_mem _ (List.mem_of_mem_filter (hall x hx).1),
                (hall x hx).2⟩⟩

theorem clusterizeAux_subset {fuel : Nat} {l C : List (Nat × String)}
    (h : C ∈ clusterizeAux fuel l) : ∀ x ∈ C, x ∈ l := by
  rcases clusterizeAux_sound fuel l C h with ⟨e, t, tail, hC, he, _, _, hall⟩
  subst hC
  intro x hx
  rcases List.mem_cons.1 hx with rfl | hx2
  · exact he
  · exact (hall x hx2).1

theorem clusterizeAux_pairwise :
    ∀ (fuel : Nat) (l : List (Nat × String)), (l.map Prod.fst).Nodup →
      (clusterizeAux fuel l).Pairwise
        (fun A B => ∀ i ∈ A.map Prod.fst, i ∉ B.map Prod.fst) := by
  intro fuel
  induction fuel with
  | zero => intro l _; simp [clusterizeAux]
  | succ fuel ih =>
    intro l hnd
    cases l with
    | nil => simp [clusterizeAux]
    | cons e rest =>
      rw [List.map_cons] at hnd
      have hhead := (List.nodup_cons.1 hnd).1
      have hnd_rest := (List.nodup_cons.1 hnd).2
      rcases hp : parseHHMMSS e.2 with _ | t
      · simp only [clusterizeAux, hp]
        exact ih rest hnd_rest
      · have hndrem : ((rest.filter (fun x => !nearSeed t x)).map Prod.fst).Nodup :=
          hnd_rest.sublist ((List.filter_sublist rest).map Prod.fst)
        simp only [clusterizeAux, hp]
        by_cases habs : ((rest.filter (nearSeed t)).isEmpty) = true
        · rw [if_pos habs]
          exact ih _ hndrem
        · rw [if_neg habs]
          refine List.pairwise_cons.2 ⟨?_, ih _ hndrem⟩
          intro B hB i hiA hiB
          rcases List.mem_map.1 hiB with ⟨y, hyB, hyi⟩
          have hyRem : y ∈ rest.filter (fun x => !nearSeed t x) :=
            clusterizeAux_subset hB y hyB
          have hyRest : y ∈ rest := List.mem_of_mem_filter hyRem
          rcases List.mem_map.1 hiA with ⟨x, hxA, hxi⟩
          rcases List.mem_cons.1 hxA with rfl | hxAbs
          · have hm : y.1 ∈ rest.map Prod.fst := List.mem_map_of_mem Prod.fst hyRest
            rw [hyi, ← hxi] at hm
            exact hhead hm
          · have hxRest : x ∈ rest := List.mem_of_mem_filter hxAbs
            have hxy : x = y :=
              List.inj_on_of_nodup_map hnd_rest hxRest hyRest (by rw [hxi, ← hyi])
            have h1 : nearSeed t x = true := (List.mem_filter.1 hxAbs).2
            have h2 : (!nearSeed t y) = true := (List.mem_filter.1 hyRem).2
            rw [← hxy, h1] at h2
            simp at h2

/-! ## Helper lemmas: group decomposition of `find_all_duplicates` -/

/-- The ids of the logs belonging to group key `k`. -/
def keyIds (db : DB) (k : String × String × String × String) : List Nat :=
  (db.logs.filter (fun r => decide (upperKey r = k))).map LogRecord.id

theorem groupMembers_fst_perm (db : DB) (k : String × String × String × String) :
    List.Perm ((groupMembers db k).map Prod.fst) (keyIds db k) := by
  have h1 := (perm_sortBy (fun a b => strLe a.2.data b.2.data)
    ((db.logs.filter (fun r => decide (upperKey r = k))).map (fun r => (r.id, r.time_on)))).map
    Prod.fst
  rw [List.map_map] at h1
  exact h1

theorem keyIds_nodup {db : DB} (h : (db.logs.map LogRecord.id).Nodup)
    (k : String × String × String × String) : (keyIds db k).Nodup :=
  h.sublist ((List.filter_sublist db.logs).map LogRecord.id)

theorem groupMembers_fst_nodup {db : DB} (h : (db.logs.map LogRecord.id).Nodup)
    (k : String × String × String × String) :
    ((groupMembers db k).map Prod.fst).Nodup :=
  (groupMembers_fst_perm db k).nodup_iff.2 (keyIds_nodup h k)

theorem cluster_ids_subset_keyIds {db : DB} {k : String × String × String × String}
    {C : List (Nat × String)} (hC : C ∈ clusterize (groupMembers db k)) :
    ∀ i ∈ C.map Prod.fst, i ∈ keyIds db k := by
  intro i hi
  rcases List.mem_map.1 hi with ⟨x, hx, rfl⟩
  have hx2 : x ∈ groupMembers db k := clusterizeAux_subset hC x hx
  exact (groupMembers_fst_perm db k).mem_iff.1 (List.mem_map_of_mem Prod.fst hx2)

theorem keyIds_disjoint {db : DB} (h : (db.logs.map LogRecord.id).Nodup)
    {k k2 : String × String × String × String} (hkk : k ≠ k2) :
    ∀ i ∈ keyIds db k, i ∉ keyIds db k2 := by
  intro i hi hi2
  rcases List.mem_map.1 hi with ⟨r, hr, hri⟩
  rcases List.mem_map.1 hi2 with ⟨r2, hr2, hr2i⟩
  have hrl : r ∈ db.logs := List.mem_of_mem_filter hr
  have hr2l : r2 ∈ db.logs := List.mem_of_mem_filter hr2
  have heq : r = r2 :=
    List.inj_on_of_nodup_map h hrl hr2l (by rw [hri, hr2i])
  have hk1 : upperKey r = k := of_decide_eq_true (List.mem_filter.1 hr).2
  have hk2 : upperKey r2 = k2 := of_decide_eq_true (List.mem_filter.1 hr2).2
  rw [heq, hk2] at hk1
  exact hkk hk1.symm

end QSL

namespace QSL

theorem clusters_flatMap_pairwise (db : DB) (hnd : (db.logs.map LogRecord.id).Nodup) :
    ∀ (KL : List (String × String × String × String)), KL.Nodup →
      (KL.flatMap fun k =>
        (clusterize (groupMembers db k)).map (fun c => c.map Prod.fst)).Pairwise
        (fun A B => ∀ i ∈ A, i ∉ B) := by
  intro KL
  induction KL with
  | nil => intro _; simp
  | cons k ks ih =>
    intro hknd
    rw [List.flatMap_cons, List.pairwise_append]
    refine ⟨?_, ih (List.nodup_cons.1 hknd).2, ?_⟩
    · have hpw := clusterizeAux_pairwise (groupMembers db k).length (groupMembers db k)
        (groupMembers_fst_nodup hnd k)
      exact List.pairwise_map.2 hpw
    · intro A hA B hB
      rcases List.mem_flatMap.1 hB with ⟨k2, hk2, hBk2⟩
      rcases List.mem_map.1 hA with ⟨C, hC, rfl⟩
      rcases List.mem_map.1 hBk2 with ⟨C2, hC2, rfl⟩
      intro i hiA hiB
      have h1 : i ∈ keyIds db k := cluster_ids_subset_keyIds hC i hiA
      have h2 : i ∈ keyIds db k2 := cluster_ids_subset_keyIds hC2 i hiB
      have hne : k ≠ k2 := by
        intro he
        subst he
        exact (List.nodup_cons.1 hknd).1 hk2
      exact keyIds_disjoint hnd hne i h1 h2

/-! ## Helper lemma: soundness of the insert-time duplicate lookup -/

theorem logExists_sound (db : DB) (call date time band mode : String) (i : Nat)
    (h : logExists db call date time band mode = some i) :
    ∃ r ∈ db.logs, r.id = i ∧ upperStr r.station_callsign = upperStr call ∧
      r.qso_date = date ∧ upperStr r.band = upperStr band ∧
      upperStr r.mode = upperStr mode ∧
      ∃ t u, parseHHMMSS time = some t ∧ parseHHMMSS r.time_on = some u ∧
        tdist t u ≤ timeWindow := by
  rw [logExists] at h
  by_cases hemp : ((db.logs.filter fun r =>
      upperStr r.station_callsign == upperStr call && r.qso_date == date &&
      upperStr r.band == upperStr band && upperStr r.mode == upperStr mode).isEmpty) = true
  · rw [if_pos hemp] at h
    exact absurd h (by simp)
  · rw [if_neg hemp] at h
    rcases hp : parseHHMMSS time with _ | t
    · rw [hp] at h
      exact absurd h (by simp)
    · rw [hp] at h
      rcases List.exists_of_findSome?_eq_some h with ⟨r, hr, hf⟩
      have hrl : r ∈ db.logs := List.mem_of_mem_filter hr
      have hpred := (List.mem_filter.1 hr).2
      rw [Bool.and_eq_true, Bool.and_eq_true, Bool.and_eq_true] at hpred
      rcases hpred with ⟨⟨⟨hcall, hdate⟩, hband⟩, hmode⟩
      rcases hq : parseHHMMSS r.time_on with _ | u
      · rw [hq] at hf
        exact absurd hf (by simp)
      · rw [hq] at hf
        have hf2 : (if tdist t u ≤ timeWindow then some r.id else none) = some i := hf
        by_cases hw : tdist t u ≤ timeWindow
        · rw [if_pos hw] at hf2
          refine ⟨r, hrl, Option.some.inj hf2, ?_, ?_, ?_, ?_, t, u, rfl, hq, hw⟩
          · exact eq_of_beq hcall
          · exact eq_of_beq hdate
          · exact eq_of_beq hband
          · exact eq_of_beq hmode
        · rw [if_neg hw] at hf2
          exact absurd hf2 (by simp)

end QSL

namespace QSL

/-! ## Concrete fixtures used by witnesses and counterexamples -/

/-- A log row with the given key fields, other data fields empty, flags `"N"`. -/
def mkLog (i : Nat) (call date time band mode comment : String) : LogRecord :=
  { id := i, station_callsign := call, qso_date := date, time_on := time,
    band := band, band_rx := "", freq := "", freq_rx := "", mode := mode,
    submode := "", rst_sent := "", rst_rcvd := "", comment := comment,
    sat_name := "", prop_mode := "", qsl_sent := "N", qsl_rcvd := "N", sort_id := i }

/-- The empty store. -/
def dbEmpty : DB := ⟨[], [], []⟩

/-- Three same-key contacts at `000000`, `000400`, `000800`: the third is
within 5 minutes of the second but not of the first (seed). -/
def dbChain : DB :=
  { logs := [mkLog 1 "A" "20240101" "000000" "20M" "SSB" "",
             mkLog 2 "A" "20240101" "000400" "20M" "SSB" "",
             mkLog 3 "A" "20240101" "000800" "20M" "SSB" ""],
    cards := [], links := [] }

/-- Two same-key contacts with comments `"hi"` and `"there"`, 4 minutes apart. -/
def dbM : DB :=
  { logs := [mkLog 1 "A" "20240101" "000000" "20M" "SSB" "hi",
             mkLog 2 "A" "20240101" "000400" "20M" "SSB" "there"],
    cards := [], links := [] }

/-! ## C10 -/

/-- C10: for every database state (with distinct rowids, as SQLite guarantees
for a primary-key column), the clusters returned by `find_all_duplicates` are
pairwise disjoint: no contact id appears in more than one returned cluster. -/
theorem C10_theorem (db : DB) (h : (db.logs.map LogRecord.id).Nodup) :
    (findAllDuplicates db).Pairwise (fun A B => ∀ i ∈ A, i ∉ B) := by
  have hKnd : (((db.logs.map upperKey).dedup).filter (fun k =>
      decide (2 ≤ (db.logs.filter (fun r => decide (upperKey r = k))).length))).Nodup :=
    (List.nodup_dedup _).filter _
  exact clusters_flatMap_pairwise db h _ hKnd

/-- Witness for C10 at a concrete store: three contacts, two clusters keys. -/
theorem C10_witness :
    (findAllDuplicates dbChain).Pairwise (fun A B => ∀ i ∈ A, i ∉ B) :=
  C10_theorem dbChain (by decide)

/-! ## C5 -/

/-- C5: the batch duplicate scan is seed-anchored single-link clustering:
every emitted cluster is a seed (with parsable time `t`) followed by absorbed
members, each within 5 minutes of *the seed's* time; only clusters of size
≥ 2 are emitted; and — concretely — times `000000, 000400, 000800` in one key
group yield the single cluster `{1, 2}`: member 3 is 4 minutes from member 2
but 8 minutes from the seed, so seed-anchored (not chained) absorption leaves
it out, and the absorbed member 2 is marked visited and never re-emitted. -/
theorem C5_theorem :
    (∀ (db : DB) (C : List Nat), C ∈ findAllDuplicates db → 2 ≤ C.length) ∧
    (∀ (l : List (Nat × String)) (C : List (Nat × String)), C ∈ clusterize l →
      ∃ e t tail, C = e :: tail ∧ e ∈ l ∧ parseHHMMSS e.2 = some t ∧ tail ≠ [] ∧
        ∀ x ∈ tail, ∃ u, parseHHMMSS x.2 = some u ∧ tdist t u ≤ timeWindow) ∧
    findAllDuplicates dbChain = [[1, 2]] := by
  refine ⟨?_, ?_, by decide⟩
  · intro db C hC
    rw [findAllDuplicates] at hC
    rcases List.mem_flatMap.1 hC with ⟨k, _, hCk⟩
    rcases List.mem_map.1 hCk with ⟨C0, hC0, rfl⟩
    rcases clusterizeAux_sound _ _ _ hC0 with ⟨e, t, tail, rfl, _, _, htne, _⟩
    rw [List.map_cons, List.length_cons]
    have : 0 < tail.length := List.length_pos.2 htne
    rw [List.length_map]
    omega
  · intro l C hC
    rcases clusterizeAux_sound _ _ _ hC with ⟨e, t, tail, rfl, he, hp, htne, hall⟩
    refine ⟨e, t, tail, rfl, he, hp, htne, ?_⟩
    intro x hx
    have hn := (hall x hx).2
    rw [nearSeed] at hn
    rcases hq : parseHHMMSS x.2 with _ | u
    · rw [hq] at hn
      simp at hn
    · rw [hq] at hn
      exact ⟨u, rfl, of_decide_eq_true hn⟩

/-- Witness for C5 at the concrete three-contact store. -/
theorem C5_witness :
    2 ≤ ([1, 2] : List Nat).length ∧
    (∃ e t tail, ([(1, "000000"), (2, "000400")] : List (Nat × String)) = e :: tail ∧
      e ∈ [(1, "000000"), (2, "000400"), (3, "000800")] ∧
      parseHHMMSS e.2 = some t ∧ tail ≠ [] ∧
      ∀ x ∈ tail, ∃ u, parseHHMMSS x.2 = some u ∧ tdist t u ≤ timeWindow) := by
  constructor
  · exact C5_theorem.1 dbChain [1, 2] (by rw [C5_theorem.2.2]; exact List.mem_singleton.2 rfl)
  · exact C5_theorem.2.1 [(1, "000000"), (2, "000400"), (3, "000800")]
      [(1, "000000"), (2, "000400")] (by decide)

end QSL

namespace QSL

/-! ## C4 -/

/-- One stored contact at time `"1206"` (4-digit HHMM form). -/
def dbT1206 : DB :=
  { logs := [mkLog 1 "BH2VSQ" "20240101" "1206" "20M" "SSB" ""], cards := [], links := [] }

/-- One stored contact at `12:04:00`. -/
def db120400 : DB :=
  { logs := [mkLog 1 "BH2VSQ" "20240101" "120400" "20M" "SSB" ""], cards := [], links := [] }

/-- One stored contact at `12:05:00`. -/
def db120500 : DB :=
  { logs := [mkLog 1 "BH2VSQ" "20240101" "120500" "20M" "SSB" ""], cards := [], links := [] }

/-- One stored contact at `12:06:00`. -/
def db120600 : DB :=
  { logs := [mkLog 1 "BH2VSQ" "20240101" "120600" "20M" "SSB" ""], cards := [], links := [] }

/-- A contact with unparsable time followed by one at `12:04:00`. -/
def dbMalformed : DB :=
  { logs := [mkLog 1 "BH2VSQ" "20240101" "ZZZZ" "20M" "SSB" "",
             mkLog 2 "BH2VSQ" "20240101" "120400" "20M" "SSB" ""],
    cards := [], links := [] }

/-- C4 counterexample: the claim's boundary example "1200 vs 1206 is not a
duplicate" fails on the code for the 4-digit HHMM strings the data model
allows: `zfill(6)` *left*-pads them to `"001200"` / `"001206"`, which parse
as 00:12:00 and 00:12:06 — six *seconds* apart — so `log_exists` returns the
`"1206"` contact as a duplicate of the `"1200"` query. -/
theorem C4_counterexample :
    logExists dbT1206 "BH2VSQ" "20240101" "1200" "20M" "SSB" = some 1 ∧
    parseHHMMSS "1200" = some 720 ∧ parseHHMMSS "1206" = some 726 := by
  decide

/-- C4 (amended): `log_exists` matches candidates case-insensitively on
(callsign, date, band, mode) and returns only candidates whose parsed time is
within the inclusive 5-minute window of the parsed given time (soundness,
first conjunct); times are zero-padded to 6 digits and parsed `HHMMSS`, and a
malformed candidate time is skipped rather than fatal.  For 6-digit `HHMMSS`
times the claimed boundary holds: `120400` and (exactly) `120500` are
duplicates of `120000`, `120600` is not; a lowercase query still matches.
For 4-digit `HHMM` times the left-padding makes the window act on the
MM:SS reading, so `"1206"` *is* returned for the query `"1200"`. -/
theorem C4_theorem :
    (∀ (db : DB) (call date time band mode : String) (i : Nat),
      logExists db call date time band mode = some i →
      ∃ r ∈ db.logs, r.id = i ∧ upperStr r.station_callsign = upperStr call ∧
        r.qso_date = date ∧ upperStr r.band = upperStr band ∧
        upperStr r.mode = upperStr mode ∧
        ∃ t u, parseHHMMSS time = some t ∧ parseHHMMSS r.time_on = some u ∧
          tdist t u ≤ timeWindow) ∧
    logExists db120400 "bh2vsq" "20240101" "120000" "20m" "ssb" = some 1 ∧
    logExists db120500 "BH2VSQ" "20240101" "120000" "20M" "SSB" = some 1 ∧
    logExists db120600 "BH2VSQ" "20240101" "120000" "20M" "SSB" = none ∧
    logExists dbMalformed "BH2VSQ" "20240101" "120000" "20M" "SSB" = some 2 ∧
    logExists dbT1206 "BH2VSQ" "20240101" "1200" "20M" "SSB" = some 1 := by
  exact ⟨logExists_sound, by decide, by decide, by decide, by decide, by decide⟩

/-- Witness for C4's soundness conjunct at a concrete lookup. -/
theorem C4_witness :
    ∃ r ∈ db120400.logs, r.id = 1 ∧
      upperStr r.station_callsign = upperStr "bh2vsq" ∧
      r.qso_date = "20240101" ∧ upperStr r.band = upperStr "20m" ∧
      upperStr r.mode = upperStr "ssb" ∧
      ∃ t u, parseHHMMSS "120000" = some t ∧ parseHHMMSS r.time_on = some u ∧
        tdist t u ≤ timeWindow :=
  C4_theorem.1 db120400 "bh2vsq" "20240101" "120000" "20m" "ssb" 1 (by decide)

/-! ## C1 -/

/-- C1 counterexample: merging the cluster `{1, 2}` of `dbM` when the
`update_log_entry` statement fails (`updOk = false`, i.e. `execute_query`
rolls its transaction back and returns `False` — a return value the caller
ignores) still deletes the non-canonical member 2, and the folded comment
`"hi | MERGED: there"` is lost: the surviving canonical keeps `"hi"`. -/
theorem C1_counterexample :
    dbM.logs.map LogRecord.id = [1, 2] ∧
    (mergeOneCluster dbM [1, 2] false).logs.map LogRecord.id = [1] ∧
    (mergeOneCluster dbM [1, 2] false).logs.map LogRecord.comment = ["hi"] := by
  decide

/-- C1 (amended): the per-cluster merge deletes the non-canonical members
*unconditionally* — the surviving set of log ids does not depend on whether
the canonical-persisting update statement succeeds (first conjunct), and
every present non-canonical member of the cluster is absent afterwards
whatever the update's fate (second conjunct).  There is no cluster-level
atomicity. -/
theorem C1_theorem :
    (∀ (db : DB) (cluster : List Nat) (updOk : Bool),
      (mergeOneCluster db cluster updOk).logs.map LogRecord.id
        = (mergeOneCluster db cluster true).logs.map LogRecord.id) ∧
    (∀ (db : DB) (cluster : List Nat) (updOk : Bool) (master : Nat) (rest : List Nat),
      sortNat cluster.dedup = master :: rest →
      (getLogDetails db master).isSome = true →
      ∀ x ∈ rest, (getLogDetails db x).isSome = true →
        x ∉ (mergeOneCluster db cluster updOk).logs.map LogRecord.id) := by
  constructor
  · intro db cluster ok
    rcases hs : sortNat cluster.dedup with _ | ⟨master, rest⟩
    · simp only [mergeOneCluster, hs]
    · simp only [mergeOneCluster, hs]
      rcases hm : getLogDetails db master with _ | m0
      · rfl
      · apply foldl_deleteLog_logIds
        by_cases hnu : ((rest.foldl (mergeStep db) (m0, false, [])).2.1) = true
        · rw [if_pos hnu, if_pos hnu, updateLogEntry_logIds, updateLogEntry_logIds]
        · rw [if_neg hnu, if_neg hnu]
  · intro db cluster ok master rest hs hm x hx hxs
    rcases hmm : getLogDetails db master with _ | m0
    · rw [hmm] at hm
      simp at hm
    · simp only [mergeOneCluster, hs, hmm]
      have hdels : ((rest.foldl (mergeStep db) (m0, false, [])).2.2)
          = rest.filter (fun i => (getLogDetails db i).isSome) := by
        simpa using mergeFold_dels db rest m0 false []
      rw [hdels]
      exact foldl_deleteLog_removes _ _ x (List.mem_filter.2 ⟨hx, hxs⟩)

/-- Witness for C1's second conjunct: in `dbM`, member 2 of cluster `{1, 2}`
is gone even though the update failed. -/
theorem C1_witness :
    (2 : Nat) ∉ (mergeOneCluster dbM [1, 2] false).logs.map LogRecord.id :=
  C1_theorem.2 dbM [1, 2] false 1 [2] (by decide) (by decide) 2 (by decide) (by decide)

end QSL

namespace QSL

/-! ## C3 -/

/-- C3 counterexample: the comment-append formula is trimmed of *trailing*
separators too (Python `.strip(" | ")` strips both ends), not only leading
ones as the claim words it: for canonical comment `"hi"` and member comment
`"there "` the code yields `"hi | MERGED: there"`, while the claim's
leading-trim-only formula yields `"hi | MERGED: there "`. -/
theorem C3_counterexample :
    (foldMember (mkLog 1 "A" "20240101" "000000" "20M" "SSB" "hi")
        (mkLog 2 "A" "20240101" "000400" "20M" "SSB" "there ")).comment
      = "hi | MERGED: there" ∧
    specCommentFormula "hi" "there " = "hi | MERGED: there " ∧
    (foldMember (mkLog 1 "A" "20240101" "000000" "20M" "SSB" "hi")
        (mkLog 2 "A" "20240101" "000400" "20M" "SSB" "there ")).comment
      ≠ specCommentFormula "hi" "there " := by
  decide

/-- C3 (amended): the canonical record of a merged cluster is the member with
the lowest contact id (`sorted(cluster)[0]`, first conjunct); for every field
except the id and the audit blob the member's value is copied only when it is
truthy and the canonical's is empty/falsy (second and third conjuncts); a
member's non-empty comment not already a substring of the canonical's is
appended as `"<canonical> | MERGED: <member>"` trimmed of leading *and
trailing* `' '`/`'|'` characters (fourth conjunct); concretely, canonical
comment `"hi"` with member comment `"there"` gives `"hi | MERGED: there"`,
and an empty canonical band with member band `"20m"` gives `"20m"`. -/
theorem C3_theorem :
    (∀ (c : List Nat) (x : Nat), x ∈ c → masterId c ∈ c ∧ masterId c ≤ x) ∧
    (∀ a b : String, mergeVal a b = if b ≠ "" ∧ a = "" then b else a) ∧
    (∀ (m d : LogRecord) (f : Field), f ≠ Field.comment →
      getF f (foldMember m d) = mergeVal (getF f m) (getF f d)) ∧
    (∀ m d : LogRecord, m.comment ≠ "" → d.comment ≠ "" →
      containsSub d.comment.data m.comment.data = false →
      (foldMember m d).comment = pyStrip (m.comment ++ " | MERGED: " ++ d.comment)) ∧
    ((foldMember (mkLog 1 "A" "20240101" "000000" "20M" "SSB" "hi")
        (mkLog 2 "A" "20240101" "000400" "20M" "SSB" "there")).comment
      = "hi | MERGED: there" ∧
     (foldMember (mkLog 1 "A" "20240101" "000000" "" "SSB" "")
        (mkLog 2 "A" "20240101" "000400" "20m" "SSB" "")).band = "20m") := by
  refine ⟨fun c x hx => masterId_mem_le hx, ?_, ?_, ?_, by decide⟩
  · intro a b
    by_cases hb : b = "" <;> by_cases ha : a = "" <;> simp [mergeVal, hb, ha]
  · intro m d f hf
    cases f <;>
      first
        | exact absurd rfl hf
        | (simp only [foldMember, foldMemberNU, getF]
           split <;> rfl)
  · intro m d hm hd hsub
    have hm1 : mergeVal m.comment d.comment = m.comment := by
      rw [mergeVal, if_neg]
      intro hc
      rw [Bool.and_eq_true] at hc
      exact hm (eq_of_beq hc.2)
    simp only [foldMember, foldMemberNU]
    rw [if_pos]
    · show pyStrip (mergeVal m.comment d.comment ++ " | MERGED: " ++ d.comment)
        = pyStrip (m.comment ++ " | MERGED: " ++ d.comment)
      rw [hm1]
    · rw [Bool.and_eq_true]
      constructor
      · exact bne_iff_ne.2 hd
      · show (!containsSub d.comment.data (mergeVal m.comment d.comment).data) = true
        rw [hm1, hsub]
        rfl

/-- Witness for C3's quantified conjuncts at concrete inputs. -/
theorem C3_witness :
    (masterId [3, 1, 2] ∈ [3, 1, 2] ∧ masterId [3, 1, 2] ≤ 3) ∧
    mergeVal "" "x" = (if "x" ≠ "" ∧ "" = "" then "x" else "") ∧
    getF Field.band
        (foldMember (mkLog 1 "A" "20240101" "000000" "" "SSB" "hi")
          (mkLog 2 "A" "20240101" "000400" "20m" "SSB" "there"))
      = mergeVal "" "20m" ∧
    (foldMember (mkLog 1 "A" "20240101" "000000" "20M" "SSB" "hi")
        (mkLog 2 "A" "20240101" "000400" "20M" "SSB" "there")).comment
      = pyStrip ("hi" ++ " | MERGED: " ++ "there") :=
  ⟨C3_theorem.1 [3, 1, 2] 3 (by decide),
   C3_theorem.2.1 "" "x",
   C3_theorem.2.2.1 (mkLog 1 "A" "20240101" "000000" "" "SSB" "hi")
     (mkLog 2 "A" "20240101" "000400" "20m" "SSB" "there") Field.band (by decide),
   C3_theorem.2.2.2.1 (mkLog 1 "A" "20240101" "000000" "20M" "SSB" "hi")
     (mkLog 2 "A" "20240101" "000400" "20M" "SSB" "there") (by decide) (by decide) (by decide)⟩

end QSL

namespace QSL

/-! ## C2 -/

/-- One contact flagged `Y`, its TC card, and their link. -/
def dbQ : DB :=
  { logs := [{ mkLog 1 "A" "20240101" "000000" "20M" "SSB" "" with qsl_sent := "Y" }],
    cards := [⟨"25000001TC0000000000000000", .TC, "In Stock", 0⟩],
    links := [("25000001TC0000000000000000", 1)] }

/-- Two contacts whose dates are in reverse id order. -/
def dbR : DB :=
  { logs := [mkLog 1 "A" "20240102" "000000" "20M" "SSB" "",
             mkLog 2 "A" "20240101" "000000" "20M" "SSB" ""],
    cards := [], links := [] }

/-- C2 counterexample: `reset_all_qsl_data` is not one all-or-nothing
transaction.  When its second statement (`DELETE FROM qsl_cards`) fails, the
already-committed link deletion stays committed: the observable state has the
link graph emptied but the card row kept — neither the initial nor the fully
reset state — and the call still returns `True`. -/
theorem C2_counterexample :
    (resetAllQslData dbQ false true false).2 = true ∧
    (resetAllQslData dbQ false true false).1.links = [] ∧
    (resetAllQslData dbQ false true false).1.cards = dbQ.cards ∧
    dbQ.links ≠ [] ∧
    (resetAllQslData dbQ false true false).1 ≠ dbQ := by
  decide

/-- C2 (amended): only `add_qsl_card` (card issuance) is a single
all-or-nothing transaction — on failure the store is untouched, on success
the card row, every link row and every flag update become visible together.
`reset_all_qsl_data` commits each of its three statements independently (a
mid-operation failure leaves the earlier deletions committed), and
`reorder_logs_by_time` commits each per-row rewrite independently (a failing
row leaves a partial renumbering: here both rows end up with `sort_id` 1). -/
theorem C2_theorem :
    (∀ (db : DB) (q : String) (l : List Nat) (dir : Dir) (t : Nat),
      (addQslCard db q l dir t).2 = false → (addQslCard db q l dir t).1 = db) ∧
    (∀ (db : DB) (q : String) (l : List Nat) (dir : Dir) (t : Nat),
      (addQslCard db q l dir t).2 = true →
      (addQslCard db q l dir t).1 =
        ⟨db.logs.map (fun r => if r.id ∈ l then setFlag dir r else r),
         db.cards ++ [⟨q, dir, "In Stock", t⟩],
         db.links ++ l.map (fun x => (q, x))⟩) ∧
    (∀ db : DB, (resetAllQslData db false true false).1.cards = db.cards ∧
      (resetAllQslData db false true false).1.links = [] ∧
      (resetAllQslData db false true false).2 = true) ∧
    ((reorderLogsByTime dbR (fun i => i == 1)).1.logs.map LogRecord.sort_id = [1, 1] ∧
     (reorderLogsByTime dbR (fun i => i == 1)).2 = true) := by
  refine ⟨?_, ?_, fun db => ⟨rfl, rfl, rfl⟩, by decide⟩
  · intro db q l dir t h
    by_cases hc : ((db.cards.any fun c => c.qsl_id == q) = true ∨ ¬ l.Nodup)
    · rw [addQslCard, if_pos hc]
    · rw [addQslCard, if_neg hc] at h
      simp at h
  · intro db q l dir t h
    by_cases hc : ((db.cards.any fun c => c.qsl_id == q) = true ∨ ¬ l.Nodup)
    · rw [addQslCard, if_pos hc] at h
      simp at h
    · rw [addQslCard, if_neg hc]

/-- Witness for C2's quantified conjuncts: a colliding card id leaves the
store untouched; a fresh issuance shows the committed composite state. -/
theorem C2_witness :
    (addQslCard dbQ "25000001TC0000000000000000" [1] .TC 5).1 = dbQ ∧
    (addQslCard dbEmpty "X" [1] .TC 5).1 =
      ⟨dbEmpty.logs.map (fun r => if r.id ∈ [1] then setFlag .TC r else r),
       dbEmpty.cards ++ [⟨"X", .TC, "In Stock", 5⟩],
       dbEmpty.links ++ [1].map (fun x => ("X", x))⟩ ∧
    (resetAllQslData dbQ false true false).1.cards = dbQ.cards :=
  ⟨C2_theorem.1 dbQ "25000001TC0000000000000000" [1] .TC 5 (by decide),
   C2_theorem.2.1 dbEmpty "X" [1] .TC 5 (by decide),
   (C2_theorem.2.2.1 dbQ).1⟩

/-! ## C9 -/

/-- One card linked to two contacts, both flagged `Y`. -/
def dbD : DB :=
  { logs := [{ mkLog 1 "A" "20240101" "000000" "20M" "SSB" "" with qsl_sent := "Y" },
             { mkLog 2 "B" "20240101" "000400" "20M" "SSB" "" with qsl_sent := "Y" }],
    cards := [⟨"25000001TC0000000000000000", .TC, "In Stock", 0⟩],
    links := [("25000001TC0000000000000000", 1), ("25000001TC0000000000000000", 2)] }

/-- C9: recycling a (contact, direction) pair returns `false` leaving the
store untouched when no card of that direction is linked to the contact
(first conjunct); when the card is found, it returns `true`, deletes exactly
the one `(card, contact)` link row, and resets that contact's flag to `N`
(second conjunct); recycling the only contact of a card also deletes the card
row, while recycling one of two linked contacts keeps the card and the other
link intact (concrete third and fourth conjuncts). -/
theorem C9_theorem :
    (∀ (db : DB) (log : Nat) (dir : Dir),
      (¬ ∃ c, c ∈ db.cards ∧ c.direction = dir ∧ (c.qsl_id, log) ∈ db.links) →
      recycleQslCard db log dir = (db, false)) ∧
    (∀ (db : DB) (log : Nat) (dir : Dir) (c : Card),
      ((db.cards.filter (fun c => decide (c.direction = dir))).find?
        (fun c => db.links.any (fun p => p.1 == c.qsl_id && p.2 == log))) = some c →
      (recycleQslCard db log dir).2 = true ∧
      (recycleQslCard db log dir).1.links
        = db.links.filter (fun p => !(p.1 == c.qsl_id && p.2 == log)) ∧
      (recycleQslCard db log dir).1.logs
        = db.logs.map (fun r => if r.id == log then clearFlag dir r else r)) ∧
    recycleQslCard dbQ 1 .TC =
      ({ logs := [mkLog 1 "A" "20240101" "000000" "20M" "SSB" ""],
         cards := [], links := [] }, true) ∧
    recycleQslCard dbD 1 .TC =
      ({ logs := [mkLog 1 "A" "20240101" "000000" "20M" "SSB" "",
                  { mkLog 2 "B" "20240101" "000400" "20M" "SSB" "" with qsl_sent := "Y" }],
         cards := [⟨"25000001TC0000000000000000", .TC, "In Stock", 0⟩],
         links := [("25000001TC0000000000000000", 2)] }, true) := by
  refine ⟨?_, ?_, by decide, by decide⟩
  · intro db log dir hne
    have hfind : ((db.cards.filter (fun c => decide (c.direction = dir))).find?
        (fun c => db.links.any (fun p => p.1 == c.qsl_id && p.2 == log))) = none := by
      rw [List.find?_eq_none]
      intro c hc hany
      rcases List.any_eq_true.1 hany with ⟨⟨p1, p2⟩, hp, hpb⟩
      rw [Bool.and_eq_true] at hpb
      have h1 : p1 = c.qsl_id := eq_of_beq hpb.1
      have h2 : p2 = log := eq_of_beq hpb.2
      subst h1
      subst h2
      exact hne ⟨c, List.mem_of_mem_filter hc,
        of_decide_eq_true (List.mem_filter.1 hc).2, hp⟩
    rw [recycleQslCard, hfind]
  · intro db log dir c hfind
    simp only [recycleQslCard, hfind]
    refine ⟨trivial, ?_, ?_⟩
    · split <;> rfl
    · split <;> rfl

/-- Witness for C9's quantified conjuncts: the empty store has nothing to
recycle; the two-contact card scenario goes through the found branch. -/
theorem C9_witness :
    recycleQslCard dbEmpty 1 .TC = (dbEmpty, false) ∧
    (recycleQslCard dbD 1 .TC).2 = true :=
  ⟨C9_theorem.1 dbEmpty 1 .TC (by rintro ⟨c, hc, _, _⟩; simp [dbEmpty] at hc),
   (C9_theorem.2.1 dbD 1 .TC ⟨"25000001TC0000000000000000", .TC, "In Stock", 0⟩
     (by decide)).1⟩

end QSL

namespace QSL

/-! ## C8 -/

/-- C8: issuing a TC card for the two contacts of `dbM` in *single* mode
flags both `qsl_sent = Y` and links both to the same one generated card id;
in *multi* mode one identifier is minted per contact and each contact is
linked to its own id — the two ids are distinct for *every* pair of entropy
values (last conjunct: the serial embedded in the second id is read back from
the first inserted card and incremented, so even identical random suffixes
cannot collide).  The mode is a single argument applied to the whole batch. -/
theorem C8_theorem :
    ((runPrintJob dbM [1, 2] .TC .single 2025 (fun _ => 0) (fun _ => 0)).2 = 2 ∧
     (runPrintJob dbM [1, 2] .TC .single 2025 (fun _ => 0) (fun _ => 0)).1.cards.map
        Card.qsl_id = ["25000001TC0000000000000000"] ∧
     (runPrintJob dbM [1, 2] .TC .single 2025 (fun _ => 0) (fun _ => 0)).1.links
        = [("25000001TC0000000000000000", 1), ("25000001TC0000000000000000", 2)] ∧
     (runPrintJob dbM [1, 2] .TC .single 2025 (fun _ => 0) (fun _ => 0)).1.logs.map
        LogRecord.qsl_sent = ["Y", "Y"]) ∧
    ((runPrintJob dbM [1, 2] .TC .multi 2025 (fun _ => 0) (fun _ => 0)).2 = 2 ∧
     (runPrintJob dbM [1, 2] .TC .multi 2025 (fun _ => 0) (fun _ => 0)).1.cards.map
        Card.qsl_id = ["25000001TC0000000000000000", "25000002TC0000000000000000"] ∧
     (runPrintJob dbM [1, 2] .TC .multi 2025 (fun _ => 0) (fun _ => 0)).1.links
        = [("25000001TC0000000000000000", 1), ("25000002TC0000000000000000", 2)] ∧
     (runPrintJob dbM [1, 2] .TC .multi 2025 (fun _ => 0) (fun _ => 0)).1.logs.map
        LogRecord.qsl_sent = ["Y", "Y"] ∧
     ("25000001TC0000000000000000" : String) ≠ "25000002TC0000000000000000") ∧
    (∀ e1 e2 t0 : Nat,
      generate dbM .TC 2025 e1
        ≠ generate (addQslCard dbM (generate dbM .TC 2025 e1) [1] .TC t0).1 .TC 2025 e2) := by
  refine ⟨by decide, by decide, ?_⟩
  intro e1 e2 t0 h
  have hser1 : getNextSerial dbM .TC 2025 = 1 := rfl
  have hser2 : getNextSerial
      (addQslCard dbM (generate dbM .TC 2025 e1) [1] .TC t0).1 .TC 2025 = 2 := rfl
  have h1 : generate dbM .TC 2025 e1
      = yearStr 2025 ++ pad6 1 ++ dirCode .TC ++ hex16 e1 := by
    rw [generate, hser1]
  have h2 : generate (addQslCard dbM (generate dbM .TC 2025 e1) [1] .TC t0).1 .TC 2025 e2
      = yearStr 2025 ++ pad6 2 ++ dirCode .TC ++ hex16 e2 := by
    rw [generate, hser2]
  rw [h2, h1] at h
  have h8 := congrArg (fun s : String => s.data.get? 7) h
  have h9 : (some '1' : Option Char) = some '2' := h8
  simp at h9

end QSL

namespace QSL

/-- Witness for C8's quantified distinctness conjunct at equal entropies. -/
theorem C8_witness :
    generate dbM .TC 2025 0
      ≠ generate (addQslCard dbM (generate dbM .TC 2025 0) [1] .TC 0).1 .TC 2025 0 :=
  C8_theorem.2.2 0 0 0

/-! ## C6 -/

/-- A store whose most recent TC card already carries the maximal 6-digit
serial `999999` of the current year. -/
def dbOverflow : DB :=
  { logs := [], cards := [⟨"25999999TC0000000000000000", .TC, "In Stock", 0⟩], links := [] }

/-- C6 counterexample: after the year's 999999-th card, the next serial is
1000000 and `f"{serial:06d}"` renders *seven* digits (min-width, not fixed
width), so the generated id no longer matches
`^\d{2}\d{6}(RC|TC)[0-9A-F]{16}$` and the characters at the direction
position are no longer the direction code. -/
theorem C6_counterexample :
    generate dbOverflow .TC 2025 0 = "251000000TC0000000000000000" ∧
    matchesIdPattern (generate dbOverflow .TC 2025 0) = false ∧
    strSlice (generate dbOverflow .TC 2025 0) 8 10 ≠ dirCode .TC := by
  decide

/-- C6 (amended): whenever the year-scoped serial has not overflowed six
digits (`serial ≤ 999999`, true until a million cards of one direction are
issued in a single year), every generated identifier matches
`^\d{2}\d{6}(RC|TC)[0-9A-F]{16}$` and the direction substring embedded at
positions 8–10 equals the requested direction. -/
theorem C6_theorem (db : DB) (dir : Dir) (y : Nat) (e : Nat)
    (h : getNextSerial db dir y ≤ 999999) :
    matchesIdPattern (generate db dir y e) = true ∧
    strSlice (generate db dir y e) 8 10 = dirCode dir := by
  have hdata := generate_data db dir y e
  have hy := yearStr_length y
  have hp6 : (pad6 (getNextSerial db dir y)).data.length = 6 := pad6_length h
  have hdl : (dirCode dir).data.length = 2 := by cases dir <;> rfl
  have hx := hex16_length e
  constructor
  · rw [matchesIdPattern]
    show ((generate db dir y e).data.length == 26 &&
        ((generate db dir y e).data.take 8).all Char.isDigit &&
        ((((generate db dir y e).data.drop 8).take 2 == ['R', 'C']) ||
          (((generate db dir y e).data.drop 8).take 2 == ['T', 'C'])) &&
        ((generate db dir y e).data.drop 10).all isHexUpChar) = true
    rw [hdata]
    rw [Bool.and_eq_true, Bool.and_eq_true, Bool.and_eq_true]
    refine ⟨⟨⟨?_, ?_⟩, ?_⟩, ?_⟩
    · have h26 : ((yearStr y).data ++ ((pad6 (getNextSerial db dir y)).data ++
          ((dirCode dir).data ++ (hex16 e).data))).length = 26 := by
        simp only [List.length_append, hy, hp6, hdl, hx]
      rw [h26]
      rfl
    · rw [take8_of_parts hy hp6, List.all_append, Bool.and_eq_true]
      exact ⟨yearStr_digits y, pad6_digits _⟩
    · rw [drop8_of_parts hy hp6, List.take_left' hdl]
      cases dir <;> rfl
    · rw [drop10_of_parts hy hp6 hdl]
      exact hex16_isHexUp e
  · rw [strSlice]
    show String.mk (((generate db dir y e).data.drop 8).take 2) = dirCode dir
    rw [hdata, drop8_of_parts hy hp6, List.take_left' hdl]

/-- Witness for C6 on the empty store (serial 1). -/
theorem C6_witness :
    matchesIdPattern (generate dbEmpty .TC 2025 0) = true ∧
    strSlice (generate dbEmpty .TC 2025 0) 8 10 = dirCode .TC :=
  C6_theorem dbEmpty .TC 2025 0 (by decide)

end QSL

namespace QSL

/-! ## C7 -/

/-- A store holding one TC card of the current year with serial `s`. -/
def dbPrev (s e t : Nat) : DB :=
  { logs := [],
    cards := [⟨"25" ++ pad6 s ++ "TC" ++ hex16 e, .TC, "In Stock", t⟩],
    links := [] }

/-- `dbPrev` after committing the next generated TC card at a later time. -/
def dbTwo (s e0 t0 e1 t1 : Nat) : DB :=
  { logs := [],
    cards := [⟨"25" ++ pad6 s ++ "TC" ++ hex16 e0, .TC, "In Stock", t0⟩,
              ⟨generate (dbPrev s e0 t0) .TC 2025 e1, .TC, "In Stock", t1⟩],
    links := [] }

/-- A store holding one TC card of the *previous* year with serial `s`. -/
def dbPrevYear (s e t : Nat) : DB :=
  { logs := [],
    cards := [⟨"24" ++ pad6 s ++ "TC" ++ hex16 e, .TC, "In Stock", t⟩],
    links := [] }

theorem getNextSerial_single (s e t : Nat) (hs : s ≤ 999999) :
    getNextSerial (dbPrev s e t) .TC 2025 = s + 1 := by
  have hmr : mostRecentCard (dbPrev s e t) .TC
      = some ⟨"25" ++ pad6 s ++ "TC" ++ hex16 e, .TC, "In Stock", t⟩ := rfl
  rw [getNextSerial, hmr]
  show (if strSlice ("25" ++ pad6 s ++ "TC" ++ hex16 e) 0 2 = yearStr 2025 then
      parseDec (strSlice ("25" ++ pad6 s ++ "TC" ++ hex16 e) 2 8).data + 1 else 1) = s + 1
  have hdata : ("25" ++ pad6 s ++ "TC" ++ hex16 e).data
      = ['2', '5'] ++ ((pad6 s).data ++ (['T', 'C'] ++ (hex16 e).data)) := by
    simp only [String.data_append, List.append_assoc]
  have h02 : strSlice ("25" ++ pad6 s ++ "TC" ++ hex16 e) 0 2 = yearStr 2025 := by
    rw [strSlice_02 hdata rfl]
    rfl
  rw [if_pos h02, strSlice_28 hdata rfl (pad6_length hs)]
  show parseDec (pad6 s).data + 1 = s + 1
  rw [parseDec_pad6 hs]

theorem getNextSerial_two (s e0 t0 e1 t1 : Nat) (hs : s ≤ 999998) (ht : t0 < t1) :
    getNextSerial (dbTwo s e0 t0 e1 t1) .TC 2025 = s + 2 := by
  have hmo : moreRecent ⟨generate (dbPrev s e0 t0) .TC 2025 e1, .TC, "In Stock", t1⟩
      ⟨"25" ++ pad6 s ++ "TC" ++ hex16 e0, .TC, "In Stock", t0⟩ = true := by
    simp [moreRecent, ht]
  have hmr : mostRecentCard (dbTwo s e0 t0 e1 t1) .TC
      = some ⟨generate (dbPrev s e0 t0) .TC 2025 e1, .TC, "In Stock", t1⟩ := by
    show (if moreRecent ⟨generate (dbPrev s e0 t0) .TC 2025 e1, .TC, "In Stock", t1⟩
          ⟨"25" ++ pad6 s ++ "TC" ++ hex16 e0, .TC, "In Stock", t0⟩ = true then
        some (⟨generate (dbPrev s e0 t0) .TC 2025 e1, .TC, "In Stock", t1⟩ : Card)
      else some (⟨"25" ++ pad6 s ++ "TC" ++ hex16 e0, .TC, "In Stock", t0⟩ : Card))
      = some (⟨generate (dbPrev s e0 t0) .TC 2025 e1, .TC, "In Stock", t1⟩ : Card)
    rw [if_pos hmo]
  have hser1 : getNextSerial (dbPrev s e0 t0) .TC 2025 = s + 1 :=
    getNextSerial_single s e0 t0 (by omega)
  have hgen : generate (dbPrev s e0 t0) .TC 2025 e1
      = yearStr 2025 ++ pad6 (s + 1) ++ dirCode .TC ++ hex16 e1 := by
    rw [generate, hser1]
  have hdata : (generate (dbPrev s e0 t0) .TC 2025 e1).data
      = ['2', '5'] ++ ((pad6 (s + 1)).data ++ (['T', 'C'] ++ (hex16 e1).data)) := by
    rw [hgen]
    simp only [String.data_append, List.append_assoc]
    rfl
  rw [getNextSerial, hmr]
  show (if strSlice (generate (dbPrev s e0 t0) .TC 2025 e1) 0 2 = yearStr 2025 then
      parseDec (strSlice (generate (dbPrev s e0 t0) .TC 2025 e1) 2 8).data + 1 else 1)
    = s + 2
  have h02 : strSlice (generate (dbPrev s e0 t0) .TC 2025 e1) 0 2 = yearStr 2025 := by
    rw [strSlice_02 hdata rfl]
    rfl
  rw [if_pos h02, strSlice_28 hdata rfl (pad6_length (by omega : s + 1 ≤ 999999))]
  show parseDec (pad6 (s + 1)).data + 1 = s + 2
  rw [parseDec_pad6 (by omega : s + 1 ≤ 999999)]

theorem getNextSerial_yearReset (s e t : Nat) :
    getNextSerial (dbPrevYear s e t) .TC 2025 = 1 := by
  have hmr : mostRecentCard (dbPrevYear s e t) .TC
      = some ⟨"24" ++ pad6 s ++ "TC" ++ hex16 e, .TC, "In Stock", t⟩ := rfl
  rw [getNextSerial, hmr]
  show (if strSlice ("24" ++ pad6 s ++ "TC" ++ hex16 e) 0 2 = yearStr 2025 then
      parseDec (strSlice ("24" ++ pad6 s ++ "TC" ++ hex16 e) 2 8).data + 1 else 1) = 1
  have hdata : ("24" ++ pad6 s ++ "TC" ++ hex16 e).data
      = ['2', '4'] ++ ((pad6 s).data ++ (['T', 'C'] ++ (hex16 e).data)) := by
    simp only [String.data_append, List.append_assoc]
  have hne : strSlice ("24" ++ pad6 s ++ "TC" ++ hex16 e) 0 2 ≠ yearStr 2025 := by
    rw [strSlice_02 hdata rfl]
    decide
  rw [if_neg hne]

/-- C7 counterexample: after the year's serials overflow six digits the
"strictly increasing" property breaks: the most recent card's id is
`"251000000TC…"`, `int(id[2:8])` reads only `"100000"` (the first six serial
digits), so the next serial is 100001 — *smaller* than the prior 1000000. -/
theorem C7_counterexample :
    getNextSerial dbOverflow .TC 2025 = 1000000 ∧
    getNextSerial
      { logs := [],
        cards := dbOverflow.cards ++ [⟨generate dbOverflow .TC 2025 0, .TC, "In Stock", 1⟩],
        links := [] } .TC 2025 = 100001 ∧
    100001 < 1000000 := by
  decide

/-- C7 (amended): as long as the year-scoped serial stays within six digits
(`s ≤ 999998` for two consecutive issuances), two generated ids of the same
direction in the same year carry serials `s+1` then `s+2` — strictly
increasing, each the prior serial plus one read back from the most recently
created card of that direction; a card whose embedded 2-digit year prefix
differs from the current year resets the serial to 1, as does an empty
store. -/
theorem C7_theorem (s e0 e1 t0 t1 : Nat) (hs : s ≤ 999998) (ht : t0 < t1) :
    getNextSerial (dbPrev s e0 t0) .TC 2025 = s + 1 ∧
    getNextSerial (dbTwo s e0 t0 e1 t1) .TC 2025 = s + 2 ∧
    getNextSerial (dbPrev s e0 t0) .TC 2025 < getNextSerial (dbTwo s e0 t0 e1 t1) .TC 2025 ∧
    (∀ s2 e2 t2 : Nat, getNextSerial (dbPrevYear s2 e2 t2) .TC 2025 = 1) ∧
    getNextSerial dbEmpty .TC 2025 = 1 := by
  refine ⟨getNextSerial_single s e0 t0 (by omega),
    getNextSerial_two s e0 t0 e1 t1 hs ht, ?_,
    fun s2 e2 t2 => getNextSerial_yearReset s2 e2 t2, rfl⟩
  rw [getNextSerial_single s e0 t0 (by omega), getNextSerial_two s e0 t0 e1 t1 hs ht]
  omega

/-- Witness for C7 at serial 5. -/
theorem C7_witness :
    getNextSerial (dbPrev 5 0 0) .TC 2025 = 6 ∧
    getNextSerial (dbTwo 5 0 0 0 1) .TC 2025 = 7 :=
  ⟨(C7_theorem 5 0 0 0 1 (by norm_num) (by norm_num)).1,
   (C7_theorem 5 0 0 0 1 (by norm_num) (by norm_num)).2.1⟩

end QSL
